import Mathlib

/-!
Verification of the cloudecode-ts decision core: a shallow embedding of the
context budget manager, orchestration loop, process supervisor, permission
gate and tool executor, with theorems checking the specification's claims.

Sources embedded here:
- src/src/core/types.ts, src/src/core/context.ts (data model, token estimate)
- src/unnamed/part_007 (Chat component: ensureContextFits, summarizeContext,
  processResponse, requestPermission)
- src/unnamed/part_005 (ToolExecutor: execute, runCommand, autoKillDuplicate)
- src/unnamed/part_002 (SessionManager save/backup/restoreBackup)

External effects (the provider call, the OS process race against the
foreground timeout, filesystem success, operator decisions) are passed in as
explicit oracle parameters, as usual for a shallow embedding of async code.
-/

namespace CloudeCode

set_option maxRecDepth 8000

/-- Roles of a chat message (src/src/core/types.ts, Message.role). -/
inductive Role where
  | user
  | assistant
  | system
  | tool
deriving DecidableEq, Repr

/-- A tool call produced by the provider (src/src/core/types.ts, ToolCall).
The argument mapping is represented by its JSON serialization, which is all
the budget estimator and the loop ever inspect of it. -/
structure ToolCall where
  id : String
  name : String
  arguments : String
deriving DecidableEq, Repr

/-- A conversation message (src/src/core/types.ts, Message). -/
structure Message where
  role : Role
  content : String
  tool_calls : Option (List ToolCall) := none
  tool_call_id : Option String := none
deriving DecidableEq, Repr

/-- Provider result (src/src/core/types.ts, ChatResponse): text, tool_use or
error, each carrying the content string the loop reads off it. -/
inductive ChatResponse where
  | text (content : String)
  | toolUse (content : String) (tool_calls : List ToolCall)
  | error (content : String)
deriving DecidableEq, Repr

/-- Content field of a response, as read by summarizeContext
(response.content, empty for a tool_use whose content was null). -/
def ChatResponse.content : ChatResponse → String
  | .text c => c
  | .toolUse c _ => c
  | .error c => c

/-- Character-count token heuristic (src/src/core/context.ts, estimateTokens):
Math.ceil(text.length / 4), with empty text mapped to 0. -/
def estimateTokens (text : String) : Nat :=
  if text = "" then 0 else (text.length + 3) / 4

/-- Tokens attributed to one message by estimateMessageTokens
(src/src/core/context.ts): content tokens plus a fixed overhead of 4, plus
name, serialized arguments and an overhead of 4 for each tool call. -/
def messageTokens (m : Message) : Nat :=
  estimateTokens m.content + 4 +
    (match m.tool_calls with
     | none => 0
     | some tcs =>
       (tcs.map (fun tc => estimateTokens tc.name + estimateTokens tc.arguments + 4)).sum)

/-- Total estimate for a message list (src/src/core/context.ts,
estimateMessageTokens). -/
def estimateMessageTokens (ms : List Message) : Nat :=
  (ms.map messageTokens).sum

/-- Tokens contributed by the optional system prompt. -/
def sysTokens : Option String → Nat
  | none => 0
  | some s => estimateTokens s

/-- The currentTokens() closure of ensureContextFits (src/unnamed/part_007):
message estimate plus system prompt estimate. -/
def currentTokens (sys : Option String) (hist : List Message) : Nat :=
  estimateMessageTokens hist + sysTokens sys

/-- Send budget (src/unnamed/part_007): Math.floor(maxTokens * 0.80), the
80% share of the effective ceiling reserved for the request. -/
def sendBudget (maxTokens : Nat) : Nat :=
  maxTokens * 4 / 5

/-- Characters admitted by the character class of the JS regex
/^[A-Z_]+:/ used to recognize structured header lines. -/
def headerChar (c : Char) : Bool :=
  decide (('A' ≤ c ∧ c ≤ 'Z') ∨ c = '_')

/-- Split of a character list at newline characters, keeping empty pieces:
the semantics of the JS String.split with separator a single newline. -/
def lineSplit : List Char → List (List Char)
  | [] => [[]]
  | c :: rest =>
    if c = '\n' then
      [] :: lineSplit rest
    else
      match lineSplit rest with
      | l :: ls => (c :: l) :: ls
      | [] => [[c]]

/-- Join with newline separators: the semantics of JS Array.join with a
newline string. -/
def joinNL : List (List Char) → List Char
  | [] => []
  | [l] => l
  | l :: ls => l ++ '\n' :: joinNL ls

/-- Test of the JS regex /^[A-Z_]+:/ on one line: a nonempty run of
capitals or underscores followed by a colon. -/
def isHeaderLineL (l : List Char) : Bool :=
  let pre := l.takeWhile headerChar
  match l.drop pre.length with
  | ':' :: _ => !pre.isEmpty
  | _ => false

/-- Scanning worker for indexOfSub. -/
def idxOfAux (pat : List Char) : List Char → Nat → Option Nat
  | [], _ => none
  | c :: rest, i =>
    if pat.isPrefixOf (c :: rest) then some i else idxOfAux pat rest (i + 1)

/-- First character index of the pattern inside s (JS String.indexOf for the
nonempty patterns this code searches for), none when absent. -/
def indexOfSub (s pat : String) : Option Nat :=
  idxOfAux pat.toList s.toList 0

/-- Substring test (JS String.includes for nonempty needles). -/
def containsSub (s pat : String) : Bool :=
  (indexOfSub s pat).isSome

/-- Rewrite applied to an oversized tool result by pass 1 of
ensureContextFits (src/unnamed/part_007 lines 515-525), on the character
list of the content: keep the KEY: value header lines, keep the first 200
characters of the body after the first "---" separator (the whole content
when there is none), and append a truncation marker. -/
def truncContentL (c : List Char) : List Char :=
  let lines := lineSplit c
  let headerLines := lines.filter isHeaderLineL
  let header := joinNL headerLines
  let body :=
    match idxOfAux ('-' :: '-' :: '-' :: []) c 0 with
    | some i => c.drop (i + 4)
    | none => c
  let truncBody := body.take 200 ++ "\n... (truncated)".toList
  if header = [] then truncBody else header ++ "\n---\n".toList ++ truncBody

/-- String-level wrapper of the pass-1 rewrite. -/
def truncContent (c : String) : String :=
  String.mk (truncContentL c.toList)

/-- Per-message action of the truncate pass: rewrite tool messages whose
content exceeds 800 characters, leave everything else alone. -/
def truncMsg (m : Message) : Message :=
  if m.role = Role.tool ∧ 800 < m.content.length then
    { m with content := truncContent m.content }
  else m

/-- Pass 1 of ensureContextFits applied to the whole history. -/
def truncatePass (hist : List Message) : List Message :=
  hist.map truncMsg

/-- Placeholder used to read a list element whose index is known in range. -/
def defaultMsg : Message :=
  { role := Role.user, content := "" }

/-- Pass 2 of ensureContextFits (src/unnamed/part_007 lines 533-543): walk
the history from the front, removing tool messages one at a time while the
estimate is over budget, never touching the last 8 messages. -/
def pruneLoop (budget sysTok : Nat) (hist : List Message) (i : Nat) : List Message :=
  if h : i < hist.length - 8 ∧ budget < estimateMessageTokens hist + sysTok then
    if (hist.getD i defaultMsg).role = Role.tool then
      pruneLoop budget sysTok (hist.eraseIdx i) i
    else
      pruneLoop budget sysTok hist (i + 1)
  else
    hist
termination_by hist.length - i
decreasing_by
  · have hi : i < hist.length := by omega
    have hlen : (hist.eraseIdx i).length = hist.length - 1 :=
      List.length_eraseIdx_of_lt hi
    omega
  · omega

/-- The fixed instruction message content installed by summarizeContext on
success (src/unnamed/part_007 line 462). -/
def compactInstruction : String :=
  "[CONTEXT COMPACTED] The conversation was compacted to save context. Below is a comprehensive summary of everything so far. Continue the task from where you left off. Do NOT re-do completed work."

/-- Fallback summary text used when the response content is empty
(src/unnamed/part_007 line 459). -/
def defaultSummary : String :=
  "Previous conversation context."

/-- Last-resort trim of summarizeContext (src/unnamed/part_007 lines
479-483): keepCount = Math.floor(n / 3) and history.slice(-keepCount).
JS slice(-0) equals slice(0), so a keepCount of 0 keeps the whole array. -/
def keepRecentThird (hist : List Message) : List Message :=
  let keepCount := hist.length / 3
  if keepCount = 0 then hist else hist.drop (hist.length - keepCount)

/-- Conversation produced by summarizeContext (src/unnamed/part_007 lines
400-487). The provider call outcome is passed in: Except.error models the
call throwing (the catch block), Except.ok r models any returned
ChatResponse, including an error-typed one, from which the code only reads
response.content. backupRead is what SessionManager.restoreBackup() yields
inside the catch (none: no or unreadable backup file). -/
def summarizeContext (hist : List Message) (resp : Except Unit ChatResponse)
    (backupRead : Option (List Message)) : List Message :=
  match resp with
  | .ok r =>
    let summary := if r.content = "" then defaultSummary else r.content
    [ { role := Role.user, content := compactInstruction },
      { role := Role.assistant, content := summary } ]
  | .error _ =>
    match backupRead with
    | some bh => if 0 < bh.length then bh else keepRecentThird hist
    | none => keepRecentThird hist

/-- Ghost record of which degradation passes an ensureContextFits call
attempted, in order. -/
inductive Pass where
  | truncate
  | prune
  | summarize
deriving DecidableEq, Repr

/-- Result of ensureContextFits: the (possibly mutated) history, the boolean
the function returns, and the trace of attempted passes. -/
structure EnsureResult where
  history : List Message
  fits : Bool
  passes : List Pass
deriving DecidableEq, Repr

/-- The ensureContextFits function (src/unnamed/part_007 lines 497-561):
try truncation, then pruning, then full summarization, stopping as soon as
the estimate is within the 80% budget, and report whether it is. -/
def ensureContextFits (maxTokens : Nat) (sys : Option String) (hist : List Message)
    (summaryResp : Except Unit ChatResponse) (backupRead : Option (List Message)) :
    EnsureResult :=
  let budget := sendBudget maxTokens
  if currentTokens sys hist ≤ budget then
    ⟨hist, true, []⟩
  else
    let h1 := truncatePass hist
    if currentTokens sys h1 ≤ budget then
      ⟨h1, true, [Pass.truncate]⟩
    else
      let h2 := pruneLoop budget (sysTokens sys) h1 0
      if currentTokens sys h2 ≤ budget then
        ⟨h2, true, [Pass.truncate, Pass.prune]⟩
      else
        let h3 := summarizeContext h2 summaryResp backupRead
        ⟨h3, decide (currentTokens sys h3 ≤ budget),
          [Pass.truncate, Pass.prune, Pass.summarize]⟩

/-! Theorems about the context budget manager. -/

/-- C1: after ensureContextFits returns, either the estimated token size of
the conversation plus system prompt is at most 80% of the effective ceiling,
or all three degradation passes (truncate, prune, summarize) were attempted
in that order; and the boolean return value is true exactly when the final
estimate is within the 80% budget. -/
theorem ensureContextFits_budget_or_exhausted (maxTokens : Nat) (sys : Option String)
    (hist : List Message) (resp : Except Unit ChatResponse)
    (backupRead : Option (List Message)) :
    ((ensureContextFits maxTokens sys hist resp backupRead).fits = true ↔
      currentTokens sys (ensureContextFits maxTokens sys hist resp backupRead).history ≤
        sendBudget maxTokens) ∧
    (currentTokens sys (ensureContextFits maxTokens sys hist resp backupRead).history ≤
        sendBudget maxTokens ∨
      (ensureContextFits maxTokens sys hist resp backupRead).passes =
        [Pass.truncate, Pass.prune, Pass.summarize]) := by
  simp only [ensureContextFits]
  split_ifs with h1 h2 h3 <;> simp_all

/-- C2: when the summarization pass succeeds (the provider call returns
rather than throws), the entire conversation is replaced by exactly two
messages: the fixed user-role compaction instruction followed by an
assistant-role message carrying the provider's summary (with a fixed
fallback text when the returned content is empty). -/
theorem summarizeContext_success_replaces_with_pair (hist : List Message)
    (r : ChatResponse) (backupRead : Option (List Message)) :
    (summarizeContext hist (.ok r) backupRead).length = 2 ∧
    summarizeContext hist (.ok r) backupRead =
      [ { role := Role.user, content := compactInstruction },
        { role := Role.assistant,
          content := if r.content = "" then defaultSummary else r.content } ] := by
  constructor <;> rfl

/-- Sample messages used in concrete counterexamples. -/
def msgU : Message := { role := Role.user, content := "build me a web app" }

/-- Second sample message. -/
def msgA : Message := { role := Role.assistant, content := "Working on it." }

/-- Third sample message. -/
def msgU2 : Message := { role := Role.user, content := "continue please" }

/-- C3 counterexample. Part 1: a network error during the summary call is
returned by the provider as an error-typed ChatResponse (the providers catch
API errors; src/src/providers/groq.ts lines 194-204), so summarizeContext
takes its success path and replaces the conversation with the two-message
pair, with the error text as summary: the backup, although present and
nonempty, is not restored. Part 2: on a thrown failure with no backup and a
2-message history, keepCount = floor(2/3) = 0 and history.slice(-0) keeps
the entire history, not the last 0 messages the claim describes. -/
theorem summarizeContext_failure_claim_false :
    (summarizeContext [msgU, msgA, msgU2]
        (.ok (.error "Network error: connection refused")) (some [msgU]) ≠ [msgU]) ∧
    summarizeContext [msgU, msgA] (.error ()) none = [msgU, msgA] ∧
    ([msgU, msgA] : List Message) ≠ [] := by
  refine ⟨by decide, rfl, by decide⟩

/-- C3 as amended: if the summary call throws, the conversation is restored
from the backup when one exists with nonempty history; with no backup (or an
empty one) the conversation keeps its last floor(n/3) messages when n is at
least 3 and is left whole when n < 3 (JS slice(-0) returns the whole array).
Compaction never crashes: summarizeContext is a total function. -/
theorem summarizeContext_failure_spec (hist : List Message)
    (backupRead : Option (List Message)) :
    (∀ bh, backupRead = some bh → 0 < bh.length →
      summarizeContext hist (.error ()) backupRead = bh) ∧
    (backupRead = none →
      summarizeContext hist (.error ()) backupRead = keepRecentThird hist) ∧
    (backupRead = some [] →
      summarizeContext hist (.error ()) backupRead = keepRecentThird hist) ∧
    (3 ≤ hist.length →
      keepRecentThird hist = hist.drop (hist.length - hist.length / 3)) ∧
    (hist.length < 3 → keepRecentThird hist = hist) := by
  refine ⟨?_, ?_, ?_, ?_, ?_⟩
  · intro bh hb hlen
    subst hb
    simp [summarizeContext, hlen]
  · intro hb
    subst hb
    rfl
  · intro hb
    subst hb
    rfl
  · intro h3
    have : hist.length / 3 ≠ 0 := by omega
    simp [keepRecentThird, this]
  · intro h3
    have : hist.length / 3 = 0 := by omega
    simp [keepRecentThird, this]

/-- Witness for the amended C3 theorem at concrete inputs. -/
theorem summarizeContext_failure_spec_witness :
    summarizeContext [msgU] (.error ()) (some [msgA]) = [msgA] :=
  (summarizeContext_failure_spec [msgU] (some [msgA])).1 [msgA] rfl (by decide)

/-! Structural lemmas about the character-list operations, used to evaluate
the truncate pass on an oversized message without deep kernel reduction. -/

/-- Splitting a newline-free line followed by a newline and a remainder. -/
theorem lineSplit_append (l rest : List Char) (h : '\n' ∉ l) :
    lineSplit (l ++ '\n' :: rest) = l :: lineSplit rest := by
  induction l with
  | nil => simp [lineSplit]
  | cons c t ih =>
    have hc : ¬(c = '\n') := fun hh => h (by simp [hh])
    have ht : '\n' ∉ t := fun hh => h (by simp [hh])
    simp [lineSplit, hc, ih ht]

/-- Splitting the join of newline-free lines followed by a newline and a
remainder. -/
theorem lineSplit_joinNL_append (l : List Char) (ls : List (List Char)) (rest : List Char)
    (h : ∀ x ∈ l :: ls, '\n' ∉ x) :
    lineSplit (joinNL (l :: ls) ++ '\n' :: rest) = (l :: ls) ++ lineSplit rest := by
  induction ls generalizing l with
  | nil => simpa using lineSplit_append l rest (h l (by simp))
  | cons m ms ih =>
    have hstep : joinNL (l :: m :: ms) = l ++ '\n' :: joinNL (m :: ms) := rfl
    rw [hstep, List.append_assoc, List.cons_append,
      lineSplit_append l _ (h l (List.mem_cons_self l _)),
      ih m (fun x hx => h x (List.mem_cons_of_mem l hx))]
    simp

/-- Length of a newline join of a nonempty list of lines. -/
theorem joinNL_length (l : List Char) (ls : List (List Char)) :
    (joinNL (l :: ls)).length = l.length + (ls.map (fun x => x.length + 1)).sum := by
  induction ls generalizing l with
  | nil => simp [joinNL]
  | cons m ms ih =>
    have hstep : joinNL (l :: m :: ms) = l ++ '\n' :: joinNL (m :: ms) := rfl
    rw [hstep]
    simp only [List.length_append, List.length_cons, ih m, List.map_cons, List.sum_cons]
    omega

/-- Every character of a newline join is a newline or a character of one of
the lines. -/
theorem mem_joinNL (c : Char) (ls : List (List Char)) (h : c ∈ joinNL ls) :
    c = '\n' ∨ ∃ l ∈ ls, c ∈ l := by
  induction ls with
  | nil => simp [joinNL] at h
  | cons l ms ih =>
    cases ms with
    | nil =>
      simp only [joinNL] at h
      exact Or.inr ⟨l, by simp, h⟩
    | cons m ms' =>
      have hstep : joinNL (l :: m :: ms') = l ++ '\n' :: joinNL (m :: ms') := rfl
      rw [hstep] at h
      rcases List.mem_append.1 h with h1 | h2
      · exact Or.inr ⟨l, by simp, h1⟩
      · rcases List.mem_cons.1 h2 with h3 | h4
        · exact Or.inl h3
        · rcases ih h4 with h5 | ⟨x, hx, hcx⟩
          · exact Or.inl h5
          · exact Or.inr ⟨x, List.mem_cons_of_mem l hx, hcx⟩

/-- The pattern scan skips a block free of the pattern's head character. -/
theorem idxOfAux_append (hd : Char) (tl xs ys : List Char) (i : Nat)
    (hx : ∀ c ∈ xs, c ≠ hd) :
    idxOfAux (hd :: tl) (xs ++ ys) i = idxOfAux (hd :: tl) ys (i + xs.length) := by
  induction xs generalizing i with
  | nil => simp
  | cons x xs' ih =>
    have hx0 : x ≠ hd := hx x (by simp)
    have hpre : ∀ r : List Char, ((hd :: tl).isPrefixOf (x :: r)) = false := by
      intro r
      simp only [List.isPrefixOf, Bool.and_eq_false_iff]
      exact Or.inl (beq_eq_false_iff_ne.mpr (Ne.symm hx0))
    simp only [List.cons_append, idxOfAux, hpre, Bool.false_eq_true, if_false]
    show idxOfAux (hd :: tl) (xs' ++ ys) (i + 1) = idxOfAux (hd :: tl) ys (i + (x :: xs').length)
    rw [ih (i + 1) (fun c hc => hx c (List.mem_cons_of_mem x hc))]
    congr 1
    simp
    omega

/-- The header line of the oversized counterexample. -/
def hdrLine : List Char := "KEY: aaaaaaa".toList

/-- Over 800 characters of KEY: value header lines. -/
def bigHeader : List Char := joinNL (List.replicate 70 hdrLine)

/-- The truncation marker appended by the pass. -/
def truncMarker : List Char := "\n... (truncated)".toList

/-- Content of the oversized counterexample message: the big header block,
a separator line and a two-character body. -/
def ceContentL : List Char := bigHeader ++ '\n' :: ("---".toList ++ '\n' :: "hi".toList)

/-- Tool message whose truncation remains over the 800-character threshold. -/
def oversizedHeaderMsg : Message :=
  { role := Role.tool, content := String.mk ceContentL }

/-- Length of the big header block. -/
theorem bigHeader_length : bigHeader.length = 909 := by
  show (joinNL (List.replicate 70 hdrLine)).length = 909
  rw [show List.replicate 70 hdrLine = hdrLine :: List.replicate 69 hdrLine from rfl,
    joinNL_length, List.map_replicate]
  decide

/-- No character of the big header block (extended by one newline) is a
dash, so the separator scan skips past it. -/
theorem bigHeader_no_dash : ∀ c ∈ bigHeader ++ ['\n'], c ≠ '-' := by
  have hh : ∀ x ∈ hdrLine, x ≠ '-' := by decide
  intro c hc
  rcases List.mem_append.1 hc with h1 | h2
  · rcases mem_joinNL c (List.replicate 70 hdrLine) h1 with h3 | ⟨l, hl, hcl⟩
    · subst h3; decide
    · have hl2 := List.eq_of_mem_replicate hl
      subst hl2
      exact hh c hcl
  · have h3 : c = '\n' := by simpa using h2
    subst h3; decide

/-- Evaluation of the pass-1 rewrite on a content made of the big header
block, the separator and a short header-free body: every header line is
kept, the body is short enough to survive whole, and a truncation marker is
appended. -/
theorem truncContentL_eval (tail : List Char)
    (hfil : (lineSplit tail).filter isHeaderLineL = [])
    (hlen : tail.length ≤ 200) :
    truncContentL (bigHeader ++ '\n' :: ("---".toList ++ '\n' :: tail)) =
      bigHeader ++ '\n' :: ("---".toList ++ '\n' :: (tail ++ truncMarker)) := by
  have hnlH : ∀ x ∈ hdrLine :: List.replicate 69 hdrLine, '\n' ∉ x := by
    intro x hx
    rcases List.mem_cons.1 hx with h1 | h2
    · subst h1; decide
    · rw [List.eq_of_mem_replicate h2]; decide
  have hsplit : lineSplit (bigHeader ++ '\n' :: ("---".toList ++ '\n' :: tail)) =
      (hdrLine :: List.replicate 69 hdrLine) ++ ("---".toList :: lineSplit tail) := by
    rw [show bigHeader = joinNL (hdrLine :: List.replicate 69 hdrLine) from rfl,
      lineSplit_joinNL_append _ _ _ hnlH, lineSplit_append _ _ (by decide)]
  have hfilter : ((hdrLine :: List.replicate 69 hdrLine) ++
      ("---".toList :: lineSplit tail)).filter isHeaderLineL =
      hdrLine :: List.replicate 69 hdrLine := by
    have h1 : isHeaderLineL hdrLine = true := by decide
    have h2 : isHeaderLineL ('-' :: '-' :: '-' :: []) = false := by decide
    simp [List.filter_append, List.filter_cons, h1, h2, hfil]
  have hidx : idxOfAux ('-' :: '-' :: '-' :: []) (bigHeader ++ '\n' :: ("---".toList ++ '\n' :: tail)) 0 =
      some 910 := by
    have hshape : bigHeader ++ '\n' :: ("---".toList ++ '\n' :: tail) =
        (bigHeader ++ ['\n']) ++ ("---".toList ++ '\n' :: tail) := by simp
    rw [hshape, idxOfAux_append _ _ _ _ _ bigHeader_no_dash]
    have hlen2 : (bigHeader ++ ['\n']).length = 910 := by
      rw [List.length_append, bigHeader_length]; rfl
    rw [hlen2]
    show idxOfAux ('-' :: '-' :: '-' :: []) ('-' :: '-' :: '-' :: '\n' :: tail) (0 + 910) = some 910
    simp [idxOfAux, List.isPrefixOf]
  have hdrop : (bigHeader ++ '\n' :: ("---".toList ++ '\n' :: tail)).drop (910 + 4) = tail := by
    have hshape : bigHeader ++ '\n' :: ("---".toList ++ '\n' :: tail) =
        (bigHeader ++ ('\n' :: "---".toList ++ ['\n'])) ++ tail := by simp
    have hlen3 : (bigHeader ++ ('\n' :: "---".toList ++ ['\n'])).length = 910 + 4 := by
      rw [List.length_append, bigHeader_length]; rfl
    rw [hshape, List.drop_left' hlen3]
  have hne : joinNL (hdrLine :: List.replicate 69 hdrLine) ≠ [] := by
    intro hh
    have hl := congrArg List.length hh
    rw [show (joinNL (hdrLine :: List.replicate 69 hdrLine)).length = 909 from bigHeader_length] at hl
    simp at hl
  simp only [truncContentL, hsplit, hfilter, hidx, hdrop]
  rw [show joinNL (hdrLine :: List.replicate 69 hdrLine) = bigHeader from rfl]
  rw [List.take_of_length_le hlen]
  rw [if_neg (by rw [show joinNL (hdrLine :: List.replicate 69 hdrLine) = bigHeader from rfl] at hne; exact hne)]
  show bigHeader ++ "\n---\n".toList ++ (tail ++ "\n... (truncated)".toList) = _
  simp [truncMarker]

/-- Content of the counterexample message after one application of the
truncate pass. -/
def ceL1 : List Char :=
  bigHeader ++ '\n' :: ("---".toList ++ '\n' :: ("hi".toList ++ truncMarker))

/-- Content of the counterexample message after two applications of the
truncate pass. -/
def ceL2 : List Char :=
  bigHeader ++ '\n' :: ("---".toList ++ '\n' :: (("hi".toList ++ truncMarker) ++ truncMarker))

/-- C6 counterexample: the truncate pass is not idempotent. On a tool
message made of over 800 characters of KEY: header lines and a short body,
the first application keeps every header line, so the result still exceeds
800 characters; a second application then appends another truncation marker
and the message changes (grows). -/
theorem truncatePass_not_idempotent :
    truncatePass (truncatePass [oversizedHeaderMsg]) ≠ truncatePass [oversizedHeaderMsg] := by
  have e1 : truncContentL ceContentL = ceL1 := by
    show truncContentL (bigHeader ++ '\n' :: ("---".toList ++ '\n' :: "hi".toList)) = ceL1
    rw [truncContentL_eval "hi".toList (by decide) (by decide)]
    rfl
  have hg1 : (800 : Nat) < oversizedHeaderMsg.content.length := by
    show (800 : Nat) < (bigHeader ++ '\n' :: ("---".toList ++ '\n' :: "hi".toList)).length
    rw [List.length_append, bigHeader_length]
    decide
  have hm1 : truncMsg oversizedHeaderMsg = { role := Role.tool, content := String.mk ceL1 } := by
    simp only [truncMsg]
    rw [if_pos ⟨rfl, hg1⟩]
    have hc : truncContent oversizedHeaderMsg.content = String.mk ceL1 := by
      show String.mk (truncContentL ((String.mk ceContentL).toList)) = String.mk ceL1
      rw [show (String.mk ceContentL).toList = ceContentL from rfl, e1]
    rw [hc]
    rfl
  have e2 : truncContentL ceL1 = ceL2 := by
    show truncContentL (bigHeader ++ '\n' :: ("---".toList ++ '\n' :: ("hi".toList ++ truncMarker))) = ceL2
    rw [truncContentL_eval ("hi".toList ++ truncMarker) (by decide) (by decide)]
    rfl
  have hg2 : (800 : Nat) < (String.mk ceL1).length := by
    show (800 : Nat) < (bigHeader ++ '\n' :: ("---".toList ++ '\n' :: ("hi".toList ++ truncMarker))).length
    rw [List.length_append, bigHeader_length]
    decide
  have hm2 : truncMsg { role := Role.tool, content := String.mk ceL1 } =
      { role := Role.tool, content := String.mk ceL2 } := by
    simp only [truncMsg]
    rw [if_pos ⟨by trivial, hg2⟩]
    have hc : truncContent (String.mk ceL1) = String.mk ceL2 := by
      show String.mk (truncContentL ((String.mk ceL1).toList)) = String.mk ceL2
      rw [show (String.mk ceL1).toList = ceL1 from rfl, e2]
    rw [hc]
  intro hcontra
  have hmsg : truncMsg (truncMsg oversizedHeaderMsg) = truncMsg oversizedHeaderMsg := by
    have h0 := congrArg (fun l => l.headD defaultMsg) hcontra
    simpa only [truncatePass, List.map_cons, List.map_nil, List.headD_cons] using h0
  rw [hm1, hm2] at hmsg
  have hdata : ceL2 = ceL1 := by
    have h1 := congrArg (fun m => m.content.data) hmsg
    simpa using h1
  have hcancel : '\n' :: ("---".toList ++ '\n' :: (("hi".toList ++ truncMarker) ++ truncMarker)) =
      '\n' :: ("---".toList ++ '\n' :: ("hi".toList ++ truncMarker)) :=
    List.append_cancel_left hdata
  simp only [List.cons.injEq, true_and] at hcancel
  have hy := List.append_cancel_left hcancel
  simp only [List.cons.injEq, true_and] at hy
  exact absurd hy (by decide)

/-- C6 as amended: the truncate pass is idempotent on every conversation
whose messages are all within the 800-character threshold after the first
application (in particular whenever the first pass brings every tool result
under the threshold); a message still longer than 800 characters after
truncation can be rewritten again. -/
theorem truncatePass_idem_of_under_threshold (hist : List Message)
    (h : ∀ m ∈ truncatePass hist, m.content.length ≤ 800) :
    truncatePass (truncatePass hist) = truncatePass hist := by
  unfold truncatePass at *
  have hid : ∀ m ∈ hist.map truncMsg, truncMsg m = m := by
    intro m hm
    have hlen := h m hm
    unfold truncMsg
    split_ifs with hc
    · exact absurd hc.2 (Nat.not_lt.mpr hlen)
    · rfl
  calc (hist.map truncMsg).map truncMsg
      = (hist.map truncMsg).map id := List.map_congr_left hid
    _ = hist.map truncMsg := List.map_id _

/-- Short well-formed tool result used as witness input. -/
def shortToolHist : List Message :=
  [ { role := Role.tool, content := "EXIT: 0\nCOMMAND: ls\n---\nREADME.md" } ]

/-- Witness for the amended C6 theorem at a concrete input. -/
theorem truncatePass_idem_witness :
    (∀ m ∈ truncatePass shortToolHist, m.content.length ≤ 800) ∧
    truncatePass (truncatePass shortToolHist) = truncatePass shortToolHist :=
  ⟨by decide, truncatePass_idem_of_under_threshold shortToolHist (by decide)⟩

/-! Injectivity of the decimal rendering used for background process ids
(the bg_N identifiers produced with Nat.repr). -/

/-- Decimal value of a digit character. -/
def charVal (c : Char) : Nat := c.toNat - 48

/-- Decimal value of a digit string, most significant digit first. -/
def digitsVal (l : List Char) : Nat :=
  l.foldl (fun a c => 10 * a + charVal c) 0

/-- Value of the rendering of one decimal digit. -/
theorem charVal_digitChar (d : Nat) (h : d < 10) :
    charVal (Nat.digitChar d) = d := by
  interval_cases d <;> rfl

/-- Peeling the least significant digit off a digit string. -/
theorem digitsVal_append_singleton (xs : List Char) (c : Char) :
    digitsVal (xs ++ [c]) = 10 * digitsVal xs + charVal c := by
  simp [digitsVal, List.foldl_append]

/-- The accumulator of Nat.toDigitsCore is a suffix of the result. -/
theorem toDigitsCore_shift (f : Nat) : ∀ (n : Nat) (acc : List Char),
    Nat.toDigitsCore 10 f n acc = Nat.toDigitsCore 10 f n [] ++ acc := by
  induction f with
  | zero => intro n acc; simp [Nat.toDigitsCore]
  | succ f ih =>
    intro n acc
    simp only [Nat.toDigitsCore]
    by_cases h : n / 10 = 0
    · simp [h]
    · simp only [h, if_false]
      rw [ih (n / 10) (Nat.digitChar (n % 10) :: acc), ih (n / 10) [Nat.digitChar (n % 10)]]
      simp

/-- With enough fuel, Nat.toDigitsCore renders the decimal value back. -/
theorem toDigitsCore_val (f : Nat) : ∀ n, n < 10 ^ f →
    digitsVal (Nat.toDigitsCore 10 f n []) = n := by
  induction f with
  | zero =>
    intro n h
    simp only [pow_zero, Nat.lt_one_iff] at h
    subst h
    rfl
  | succ f ih =>
    intro n h
    simp only [Nat.toDigitsCore]
    by_cases h0 : n / 10 = 0
    · simp only [h0, if_true]
      have hn : n < 10 := by omega
      have hmod : n % 10 = n := Nat.mod_eq_of_lt hn
      have : digitsVal [Nat.digitChar (n % 10)] = charVal (Nat.digitChar (n % 10)) := by
        simp [digitsVal]
      rw [this, charVal_digitChar _ (Nat.mod_lt _ (by norm_num)), hmod]
    · simp only [h0, if_false]
      rw [toDigitsCore_shift, digitsVal_append_singleton]
      have hdiv : n / 10 < 10 ^ f := by
        have hp : (10 : Nat) ^ (f + 1) = 10 ^ f * 10 := pow_succ 10 f
        exact (Nat.div_lt_iff_lt_mul (by norm_num)).mpr (hp ▸ h)
      rw [ih (n / 10) hdiv, charVal_digitChar _ (Nat.mod_lt _ (by norm_num))]
      omega

/-- The decimal rendering of a natural number is injective. -/
theorem natRepr_injective (a b : Nat) (h : Nat.repr a = Nat.repr b) : a = b := by
  have hd : Nat.toDigits 10 a = Nat.toDigits 10 b := by
    have h2 := congrArg String.data h
    simpa [Nat.repr, List.asString] using h2
  have hbound : ∀ n : Nat, n < 10 ^ (n + 1) := fun n =>
    Nat.lt_of_lt_of_le (Nat.lt_pow_self (by norm_num) n)
      (Nat.pow_le_pow_right (by norm_num) (Nat.le_succ n))
  have ha : digitsVal (Nat.toDigits 10 a) = a := toDigitsCore_val (a + 1) a (hbound a)
  have hb : digitsVal (Nat.toDigits 10 b) = b := toDigitsCore_val (b + 1) b (hbound b)
  rw [← ha, ← hb, hd]

/-- Rendering of a background process identifier (the bg_N template of
src/unnamed/part_005 line 240). -/
def procId (k : Nat) : String :=
  "bg_" ++ Nat.repr k

/-- Process identifiers are injective. -/
theorem procId_injective (a b : Nat) (h : procId a = procId b) : a = b := by
  have hdata : ("bg_".data ++ (Nat.repr a).data) = ("bg_".data ++ (Nat.repr b).data) :=
    congrArg String.data h
  have hrepr : (Nat.repr a).data = (Nat.repr b).data := List.append_cancel_left hdata
  exact natRepr_injective a b (by cases ha : Nat.repr a; cases hb : Nat.repr b; simp_all)

/-! ProcessSupervisor (src/unnamed/part_005, ToolExecutor command handling).
The OS child process is reduced to the observations the supervisor makes of
it: buffered output, pid, and the outcome of the race against the 15 second
foreground timeout, all passed in as oracle parameters. -/

/-- A tracked background process entry (src/unnamed/part_005, BgProcess). -/
structure BgProc where
  command : String
  startTime : Nat
  stdout : String
  stderr : String
  running : Bool
  exitCode : Option Int
  port : Option Nat := none
  pid : Option Nat := none
deriving DecidableEq, Repr

/-- Supervisor state: the cwd, processes and nextProcId fields of
ToolExecutor. The registry is the insertion-ordered association list
backing the JS Map. -/
structure SupState where
  cwd : String
  processes : List (String × BgProc)
  nextProcId : Nat
deriving DecidableEq, Repr

/-- JS Map.set: overwrite an existing key in place, append a new one. -/
def mapSet (m : List (String × BgProc)) (k : String) (v : BgProc) :
    List (String × BgProc) :=
  if m.any (fun e => e.1 = k) then
    m.map (fun e => if e.1 = k then (k, v) else e)
  else
    m ++ [(k, v)]

/-- ASCII whitespace admitted by the JS regex class backslash-s. -/
def jsWs (c : Char) : Bool :=
  c = ' ' || c = '\t' || c = '\n' || c = '\r' || c = '\x0b' || c = '\x0c'

/-- JS String.trim on a character list. -/
def jsTrim (s : List Char) : List Char :=
  ((s.dropWhile jsWs).reverse.dropWhile jsWs).reverse

/-- Lowercased character list of a string, for the case-insensitive regex
tests. -/
def lowerList (s : String) : List Char :=
  s.toList.map Char.toLower

/-- Match a literal word at the current position, returning the remainder. -/
def lit (w : List Char) (cs : List Char) : Option (List Char) :=
  if w.isPrefixOf cs then some (cs.drop w.length) else none

/-- Match one or more whitespace characters, returning the remainder. The
following atom in every pattern below starts with a non-whitespace
character, so maximal munch is equivalent to the regex backtracking. -/
def wsPlus (cs : List Char) : Option (List Char) :=
  if (cs.takeWhile jsWs).isEmpty then none else some (cs.dropWhile jsWs)

/-- Match any run of non-newline characters followed by a literal word (the
dot-star-then-word tail of the node server pattern). -/
def dotStarThen (w : List Char) : List Char → Bool
  | [] => w.isPrefixOf []
  | c :: rest => w.isPrefixOf (c :: rest) || (!(c = '\n') && dotStarThen w rest)

/-- Does the predicate hold at some suffix (an unanchored regex test)? -/
def anySuffix (f : List Char → Bool) : List Char → Bool
  | [] => f []
  | c :: rest => f (c :: rest) || anySuffix f rest

/-- The npm run dev-or-start-or-serve pattern, tested at one position. -/
def matchNpmRun (cs : List Char) : Bool :=
  ((((lit "npm".toList cs).bind wsPlus).bind (lit "run".toList)).bind wsPlus).elim false
    (fun r => "dev".toList.isPrefixOf r || "start".toList.isPrefixOf r ||
      "serve".toList.isPrefixOf r)

/-- The npx vite-or-next-or-react-scripts pattern, tested at one position. -/
def matchNpx (cs : List Char) : Bool :=
  ((lit "npx".toList cs).bind wsPlus).elim false
    (fun r => "vite".toList.isPrefixOf r || "next".toList.isPrefixOf r ||
      "react-scripts".toList.isPrefixOf r)

/-- The node dot-star server pattern, tested at one position. -/
def matchNodeServer (cs : List Char) : Bool :=
  ((lit "node".toList cs).bind wsPlus).elim false (dotStarThen "server".toList)

/-- The python -m http.server pattern, tested at one position. -/
def matchPyHttp (cs : List Char) : Bool :=
  ((((lit "python".toList cs).bind wsPlus).bind (lit "-m".toList)).bind wsPlus).elim false
    (fun r => "http.server".toList.isPrefixOf r)

/-- The live-server pattern, tested at one position. -/
def matchLiveServer (cs : List Char) : Bool :=
  "live-server".toList.isPrefixOf cs

/-- The SERVER_PATTERNS list (src/unnamed/part_005 lines 32-38), as
position matchers over lowercased input. -/
def SERVER_PATTERNS : List (List Char → Bool) :=
  [matchNpmRun, matchNpx, matchNodeServer, matchPyHttp, matchLiveServer]

/-- Case-insensitive unanchored regex test of one server pattern. -/
def testPattern (p : List Char → Bool) (s : String) : Bool :=
  anySuffix p (lowerList s)

/-- Parse a digit list as a decimal number (the parseInt of a capture). -/
def digitsToNat (ds : List Char) : Nat :=
  ds.foldl (fun a c => a * 10 + (c.toNat - 48)) 0

/-- After a recognized prefix: optional whitespace then a 4 to 5 digit run
(the backslash-s-star backslash-d-4-5 tail of the port regex). -/
def portAfter (cs : List Char) : Option Nat :=
  let r := cs.dropWhile jsWs
  let run := r.takeWhile Char.isDigit
  if 4 ≤ run.length then some (digitsToNat (run.take 5)) else none

/-- Scan for the first position where one of the port prefixes matches and
digits follow (first port regex of src/unnamed/part_005 line 42, on
lowercased input). -/
def portScan1 : List Char → Option Nat
  | [] => none
  | c :: rest =>
    let here :=
      if "port".toList.isPrefixOf (c :: rest) then portAfter ((c :: rest).drop 4)
      else none
    let here2 :=
      match here with
      | some p => some p
      | none =>
        if "localhost:".toList.isPrefixOf (c :: rest) then portAfter ((c :: rest).drop 10)
        else none
    let here3 :=
      match here2 with
      | some p => some p
      | none =>
        if "127.0.0.1:".toList.isPrefixOf (c :: rest) then portAfter ((c :: rest).drop 10)
        else none
    match here3 with
    | some p => some p
    | none => portScan1 rest

/-- Scan for a colon immediately followed by 4 to 5 digits (second port
regex of src/unnamed/part_005 line 43). -/
def portScan2 : List Char → Option Nat
  | [] => none
  | c :: rest =>
    let here :=
      if c = ':' then
        let run := rest.takeWhile Char.isDigit
        if 4 ≤ run.length then some (digitsToNat (run.take 5)) else none
      else none
    match here with
    | some p => some p
    | none => portScan2 rest

/-- The extractPort helper (src/unnamed/part_005 lines 41-45). -/
def extractPort (text : String) : Option Nat :=
  match portScan1 (lowerList text) with
  | some p => some p
  | none => portScan2 text.toList

/-- Running process matching a server pattern compatible with the new
command (the isSameType test of autoKillDuplicate). -/
def sameServerType (patterns : List (List Char → Bool)) (command : String)
    (pr : BgProc) : Bool :=
  pr.running && patterns.any (fun p => testPattern p pr.command && testPattern p command)

/-- The autoKillDuplicate method (src/unnamed/part_005 lines 171-191):
when the new command matches a server pattern, stop and remove the first
running registered process matching a compatible pattern, and report it;
otherwise change nothing. Killing the OS process is an external effect. -/
def autoKillDuplicate (patterns : List (List Char → Bool))
    (processes : List (String × BgProc)) (command : String) :
    Option String × List (String × BgProc) :=
  if !(patterns.any (fun p => testPattern p command)) then
    (none, processes)
  else
    match processes.find? (fun e => sameServerType patterns command e.2) with
    | none => (none, processes)
    | some e =>
      (some ("Auto-stopped previous server " ++ e.1 ++ " (" ++ e.2.command ++ ")"),
        processes.eraseP (fun x => decide (x.1 = e.1)))

/-- Filesystem answer for a path, for the fs-extra oracle. -/
inductive PathKind where
  | missing
  | file
  | dir
deriving DecidableEq, Repr

/-- Outcome of the race between process completion and the 15 second
foreground timeout (src/unnamed/part_005 lines 234-237): the command
finishes in time (successfully or not), the spawn itself throws, or the
timeout fires first. -/
inductive ExecOutcome where
  | finished (success : Bool) (exitCode : Nat) (errMessage : String)
  | threw (exitCode : Nat) (errMessage : String)
  | timedOut
deriving DecidableEq, Repr

/-- Observations captured from the child before the race is decided:
buffered stdout and stderr (accumulated from the moment of start) and the
pid. -/
structure ExecCapture where
  stdout : String
  stderr : String
  pid : Option Nat
deriving DecidableEq, Repr

/-- Absolute-path test (path.isAbsolute, POSIX form). -/
def isAbsolutePath (p : String) : Bool :=
  match p.toList with
  | '/' :: _ => true
  | _ => false

/-- Embedding of path.resolve for the simple shapes this code produces: an
absolute path stands, an empty path resolves to the base, anything else is
joined; segment normalization is not modeled. -/
def resolvePath (cwd p : String) : String :=
  if p = "" then cwd
  else if isAbsolutePath p then p
  else cwd ++ "/" ++ p

/-- JS string helpers on the model type. -/
def jsTrimS (s : String) : String := String.mk (jsTrim s.toList)

/-- Lowercasing as a string. -/
def lowerS (s : String) : String := String.mk (lowerList s)

/-- JS substring(0, n). -/
def jsSubstrTo (s : String) (n : Nat) : String := String.mk (s.toList.take n)

/-- The cd regex of runCommand (src/unnamed/part_005 lines 208-210):
forward-slash anchored cd, whitespace, captured rest with no newline; the
capture is trimmed and stripped of quote characters. When the remainder is
all whitespace the regex backtracks and captures the final whitespace
character, which trims to the empty target. -/
def cdTarget (command : String) : Option String :=
  match command.toList with
  | c1 :: c2 :: rest =>
    if Char.toLower c1 = 'c' ∧ Char.toLower c2 = 'd' then
      let ws := rest.takeWhile jsWs
      let rem := rest.drop ws.length
      if ws.isEmpty then none
      else if rem.isEmpty then
        match ws.getLast? with
        | some c => if c = '\n' then none else some ""
        | none => none
      else if rem.contains '\n' then none
      else some (String.mk ((jsTrim rem).filter (fun c => !(c = '"' || c = '\''))))
    else none
  | _ => none

/-- JS template piece for a nullable pid: the value, or the string unknown
when missing or zero (the JS or-else on a falsy number). -/
def pidText (pid : Option Nat) : String :=
  match pid with
  | some p => if p = 0 then "unknown" else Nat.repr p
  | none => "unknown"

/-- The combined output string of a finished command (stdout, then a
STDERR section when present, trimmed). -/
def combinedOutput (cap : ExecCapture) : String :=
  jsTrimS (cap.stdout ++ (if cap.stderr = "" then "" else "\nSTDERR:\n" ++ cap.stderr))

/-- The JS or-else of a zero exit code with 1. -/
def jsExitCode (n : Nat) : Nat := if n = 0 then 1 else n

/-- The body of runCommand after the cwd-override validation
(src/unnamed/part_005 lines 206-285): cd handling, duplicate-server
preemption, then the race between completion and the foreground timeout. -/
def runCommandBody (st : SupState) (fs : String → PathKind) (command : String)
    (effectiveCwd : String) (cap : ExecCapture) (outcome : ExecOutcome)
    (now : Nat) : String × SupState :=
  match cdTarget command with
  | some target =>
    let newDir := resolvePath st.cwd target
    if fs newDir = PathKind.dir then
      ("CWD: " ++ newDir, { st with cwd := newDir })
    else
      ("ERROR: Directory not found\nPath: " ++ newDir, st)
  | none =>
    if lowerS (jsTrimS command) = "cd" then
      ("CWD: " ++ st.cwd, st)
    else
      let ak := autoKillDuplicate SERVER_PATTERNS st.processes command
      let killMsg := ak.1
      let st1 : SupState := { st with processes := ak.2 }
      let withKill := fun (r : String) =>
        match killMsg with
        | some m => m ++ "\n" ++ r
        | none => r
      match outcome with
      | ExecOutcome.timedOut =>
        let id := procId st1.nextProcId
        let port :=
          match extractPort command with
          | some p => some p
          | none => extractPort (cap.stdout ++ cap.stderr)
        let pr : BgProc :=
          { command := command, startTime := now, stdout := cap.stdout,
            stderr := cap.stderr, running := true, exitCode := none,
            port := port, pid := cap.pid }
        let preview := jsSubstrTo (cap.stdout ++ cap.stderr) 300
        let r0 := "BACKGROUNDED: Process auto-backgrounded after 15s\nPROCESS_ID: " ++
          id ++ "\nCOMMAND: " ++ command ++ "\nPID: " ++ pidText cap.pid
        let r1 := match port with
          | some p => r0 ++ "\nPORT: " ++ Nat.repr p
          | none => r0
        let r2 := r1 ++ "\n" ++
          (if preview = "" then "(no output yet)"
           else "---\n" ++ preview ++ (if 300 ≤ preview.length then "..." else ""))
        let r3 := r2 ++ "\n\nUse get_logs(\"" ++ id ++ "\") to view output or stop_process(\"" ++
          id ++ "\") to terminate."
        (withKill r3,
          { st1 with processes := mapSet st1.processes id pr,
                     nextProcId := st1.nextProcId + 1 })
      | ExecOutcome.finished success exitCode errMessage =>
        let output := combinedOutput cap
        if success then
          (withKill ("EXIT: 0\nCOMMAND: " ++ command ++ "\nCWD: " ++ effectiveCwd ++
            "\n---\n" ++ (if output = "" then "(no output)" else output)), st1)
        else
          (withKill ("EXIT: " ++ Nat.repr (jsExitCode exitCode) ++ "\nCOMMAND: " ++ command ++
            "\nCWD: " ++ effectiveCwd ++ "\n---\n" ++
            (if output = "" then errMessage else output)), st1)
      | ExecOutcome.threw exitCode errMessage =>
        ("EXIT: " ++ Nat.repr (jsExitCode exitCode) ++ "\nCOMMAND: " ++ command ++
          "\nCWD: " ++ effectiveCwd ++ "\n---\n" ++ errMessage, st1)

/-- The runCommand method (src/unnamed/part_005 lines 193-286): validate an
explicit cwd override, then run the body. -/
def runCommand (st : SupState) (fs : String → PathKind) (command : String)
    (cwdOverride : Option String) (cap : ExecCapture) (outcome : ExecOutcome)
    (now : Nat) : String × SupState :=
  match cwdOverride with
  | some c =>
    let effectiveCwd := resolvePath st.cwd c
    match fs effectiveCwd with
    | PathKind.missing => ("ERROR: Directory not found\nPath: " ++ effectiveCwd, st)
    | PathKind.file => ("ERROR: Not a directory\nPath: " ++ effectiveCwd, st)
    | PathKind.dir => runCommandBody st fs command effectiveCwd cap outcome now
  | none => runCommandBody st fs command st.cwd cap outcome now

/-! PermissionGate (src/unnamed/part_007, requestPermission and the
useInput decision handler). -/

/-- The configured dangerous tool set (src/unnamed/part_007 line 259). -/
def DANGEROUS_TOOLS : List String := ["run_command", "write_file", "stop_process"]

/-- Result of a permission check: an immediate resolution, or a suspension
until the operator decides. -/
inductive PermCheck where
  | immediate (allowed : Bool)
  | suspend
deriving DecidableEq, Repr

/-- The requestPermission function (src/unnamed/part_007 lines 391-397):
immediate approval for session-allowed tools and for tools outside the
dangerous set, otherwise a pending prompt. -/
def requestPermission (sessionAllowed : List String) (toolName : String) : PermCheck :=
  if sessionAllowed.contains toolName then PermCheck.immediate true
  else if !(DANGEROUS_TOOLS.contains toolName) then PermCheck.immediate true
  else PermCheck.suspend

/-- Operator decision resolving a suspended prompt: the Y, N and A keys of
the useInput handler (src/unnamed/part_007 lines 374-388). -/
inductive PermDecision where
  | approveOnce
  | deny
  | approveSession
deriving DecidableEq, Repr

/-- Effect of one decision: the updated allow-list and the resolved
boolean. Only approve-for-session touches the allow-list, by insertion. -/
def applyDecision (sessionAllowed : List String) (toolName : String) :
    PermDecision → List String × Bool
  | PermDecision.approveOnce => (sessionAllowed, true)
  | PermDecision.deny => (sessionAllowed, false)
  | PermDecision.approveSession => (toolName :: sessionAllowed, true)

/-- All mutations the component ever applies to the allow-list: a sequence
of resolved prompts. -/
def applyEvents (sessionAllowed : List String) : List (String × PermDecision) → List String
  | [] => sessionAllowed
  | (t, d) :: evs => applyEvents (applyDecision sessionAllowed t d).1 evs

/-- The on-disk session payload (src/unnamed/part_002, SessionData):
history, the last 100 display messages, model and cwd. The savedAt
timestamp is an ignored oracle value and is omitted. There is no field for
the permission allow-list. -/
structure SessionData where
  history : List Message
  displayMessages : List Message
  model : String
  cwd : String
deriving DecidableEq, Repr

/-- The SessionManager.save payload (src/unnamed/part_002 lines 131-145):
displayMessages.slice(-100) keeps the last 100 display messages (Nat
subtraction makes drop keep everything when there are fewer). -/
def savePayload (history display : List Message) (model cwd : String) : SessionData :=
  { history := history,
    displayMessages := display.drop (display.length - 100),
    model := model,
    cwd := cwd }

/-! ToolExecutor.execute (src/unnamed/part_005 lines 72-99). The nine tool
implementations are an oracle keyed by tool name; an Except.error models a
thrown JS exception, rendered by the catch block. -/

/-- The tool names the switch dispatches on. -/
def TOOL_NAMES : List String :=
  ["read_file", "write_file", "list_dir", "run_command", "stop_process",
   "list_processes", "get_logs", "send_input", "fetch_url"]

/-- Argument object of a tool call (src/src/tools/definitions.ts shapes). -/
structure ToolArgs where
  path : Option String := none
  content : Option String := none
  command : Option String := none
  cwd : Option String := none
  process_id : Option String := none
  tail : Option Nat := none
  input : Option String := none
  url : Option String := none
deriving DecidableEq, Repr

/-- The execute wrapper: dispatch by name to the owning implementation
(each switch case calls the private method for that name), answer the
unknown-tool string for any other name, and render a thrown exception as an
error string. -/
def executeTool (impl : String → ToolArgs → Except String String)
    (name : String) (args : ToolArgs) : String :=
  if TOOL_NAMES.contains name then
    match impl name args with
    | Except.ok r => r
    | Except.error e => "Error executing " ++ name ++ ": " ++ e
  else
    "Error: Unknown tool " ++ name

/-! OrchestrationLoop (src/unnamed/part_007, processResponse lines
563-690), with the provider, summary call, operator decisions, tool
executor results and session filesystem as oracle parameters; the abort
signal is modeled as constant over the turn. -/

/-- The depth limit constant (src/unnamed/part_007 line 255). -/
def MAX_TOOL_DEPTH : Nat := 15

/-- Oracles and fixed configuration of one turn. -/
structure LoopCfg where
  maxTokens : Nat
  sysPrompt : Option String
  model : String
  cwd : String
  aborted : Bool
  uiPct : Nat
  provider : Nat → ChatResponse
  summary : Nat → Except Unit ChatResponse
  decisions : Nat → PermDecision
  execResults : Nat → String
  fsOk : Bool

/-- Mutable state threaded through one turn: provider history, display
messages, allow-list, session files, and the oracle cursors. -/
structure LoopSt where
  history : List Message
  display : List Message
  sessionAllowed : List String
  sessionFile : Option SessionData
  backupFile : Option SessionData
  calls : Nat
  compactions : Nat
  prompts : Nat
  execs : Nat
deriving DecidableEq, Repr

/-- Append one message to the display transcript (setMessages push). -/
def pushDisplay (st : LoopSt) (m : Message) : LoopSt :=
  { st with display := st.display ++ [m] }

/-- A system-role display message. -/
def sysMsg (s : String) : Message :=
  { role := Role.system, content := s }

/-- SessionManager.save (best effort; a failing filesystem is a silent
no-op). The display staleness of the React closure is not modeled. -/
def saveSession (cfg : LoopCfg) (st : LoopSt) : LoopSt :=
  if cfg.fsOk then
    { st with sessionFile := some (savePayload st.history st.display cfg.model cfg.cwd) }
  else st

/-- SessionManager.backup: copy the session file over the backup file when
it exists (silent no-op on failure). -/
def backupSession (cfg : LoopCfg) (st : LoopSt) : LoopSt :=
  if cfg.fsOk then
    match st.sessionFile with
    | some d => { st with backupFile := some d }
    | none => st
  else st

/-- The summarizeContext method as a loop step (src/unnamed/part_007 lines
400-487): save and back up, call the provider for a summary (consuming one
compaction index), then install the replacement pair or recover, pushing
the corresponding display note. -/
def summarizeStep (cfg : LoopCfg) (st : LoopSt) : LoopSt :=
  let st1 := backupSession cfg (saveSession cfg st)
  let resp := cfg.summary st1.compactions
  let backupRead := st1.backupFile.map (fun d => d.history)
  let newHist := summarizeContext st1.history resp backupRead
  let st2 := { st1 with history := newHist, compactions := st1.compactions + 1 }
  match resp with
  | Except.ok _ =>
    pushDisplay st2 (sysMsg ("Context compacted (was " ++ Nat.repr cfg.uiPct ++
      "%). Summary preserved."))
  | Except.error _ =>
    match backupRead with
    | some bh =>
      if 0 < bh.length then
        pushDisplay st2 (sysMsg "Compaction failed, context restored from backup.")
      else st2
    | none => st2

/-- The ensureContextFits call as a loop step: same pass structure as
ensureContextFits (verified separately on the pure form), with the pass-3
side effects of summarizeStep and the auto-compacting display note. The
tofixed rounding of the note is Nat rounding to the nearest. -/
def ensureFitsStep (cfg : LoopCfg) (st : LoopSt) : LoopSt :=
  let budget := sendBudget cfg.maxTokens
  if currentTokens cfg.sysPrompt st.history ≤ budget then st
  else
    let h1 := truncatePass st.history
    if currentTokens cfg.sysPrompt h1 ≤ budget then { st with history := h1 }
    else
      let h2 := pruneLoop budget (sysTokens cfg.sysPrompt) h1 0
      if currentTokens cfg.sysPrompt h2 ≤ budget then { st with history := h2 }
      else
        let st3 := pushDisplay { st with history := h2 }
          (sysMsg ("Auto-compacting context to fit within " ++
            Nat.repr ((cfg.maxTokens + 500) / 1000) ++ "k token limit."))
        summarizeStep cfg st3

/-- The sequential tool-call loop of the tool_use branch
(src/unnamed/part_007 lines 639-669). Returns the state and whether the
loop returned early on cancellation. Each suspended prompt consumes one
operator decision; each executed tool consumes one executor result. -/
def execCalls (cfg : LoopCfg) (st : LoopSt) : List ToolCall → LoopSt × Bool
  | [] => (st, false)
  | call :: rest =>
    if cfg.aborted then (pushDisplay st (sysMsg "Request cancelled."), true)
    else
      let pres : Bool × LoopSt :=
        match requestPermission st.sessionAllowed call.name with
        | PermCheck.immediate b => (b, st)
        | PermCheck.suspend =>
          let d := cfg.decisions st.prompts
          let st' := { st with prompts := st.prompts + 1 }
          let pair := applyDecision st'.sessionAllowed call.name d
          (pair.2, { st' with sessionAllowed := pair.1 })
      let allowed := pres.1
      let stA := pres.2
      let resPair : String × LoopSt :=
        if allowed then
          (cfg.execResults stA.execs, { stA with execs := stA.execs + 1 })
        else
          ("Permission denied by user for " ++ call.name,
            pushDisplay stA (sysMsg ("Blocked: " ++ call.name)))
      let result := resPair.1
      let stB := resPair.2
      let tmsg : Message := { role := Role.tool, content := result, tool_call_id := some call.id }
      let stC := pushDisplay stB tmsg
      let stD := { stC with history := stC.history ++ [tmsg] }
      execCalls cfg stD rest

/-- The processResponse loop (src/unnamed/part_007 lines 563-690): depth
guard, cancellation guard, budget check, provider call, then interpretation
of the response; capacity errors compact and retry once at depth plus one,
other errors are terminal with the error text appended as an assistant
message; a text reply is terminal and saves the session; tool calls run
sequentially and recurse. -/
def processResponse (cfg : LoopCfg) (st : LoopSt) (depth : Nat) : LoopSt :=
  if MAX_TOOL_DEPTH ≤ depth then
    pushDisplay st (sysMsg "Tool call depth limit reached.")
  else if cfg.aborted then
    pushDisplay st (sysMsg "Request cancelled.")
  else
    let st1 := ensureFitsStep cfg st
    let resp := cfg.provider st1.calls
    let st2 := { st1 with calls := st1.calls + 1 }
    match resp with
    | ChatResponse.error c =>
      if containsSub c "cancelled by user" || cfg.aborted then
        pushDisplay st2 (sysMsg "Request cancelled.")
      else if containsSub c "413" || containsSub c "Request too large" ||
          containsSub c "tokens per minute" then
        let st3 := pushDisplay st2 (sysMsg "Hit token limit, auto-compacting...")
        let st4 := summarizeStep cfg st3
        processResponse cfg st4 (depth + 1)
      else
        let st3 := pushDisplay st2 (sysMsg ("Error: " ++ c))
        { st3 with history := st3.history ++ [{ role := Role.assistant, content := c }] }
    | ChatResponse.text c =>
      let amsg : Message := { role := Role.assistant, content := c }
      let st3 := pushDisplay st2 amsg
      let st4 := { st3 with history := st3.history ++ [amsg] }
      saveSession cfg st4
    | ChatResponse.toolUse c calls =>
      let amsg : Message := { role := Role.assistant, content := c, tool_calls := some calls }
      let st3 := pushDisplay st2 amsg
      let st4 := { st3 with history := st3.history ++ [amsg] }
      match execCalls cfg st4 calls with
      | (st5, true) => st5
      | (st5, false) => processResponse cfg st5 (depth + 1)
termination_by MAX_TOOL_DEPTH - depth
decreasing_by
  all_goals
    simp only [MAX_TOOL_DEPTH] at *
    omega

/-! Theorems about the tool executor and the permission gate. -/

/-- C10: executeTool is total at the public interface: it returns a string
for every name and argument object; an unrecognized name yields the
unknown-tool answer, a thrown implementation exception is caught and
rendered, and a normal result is passed through. -/
theorem executeTool_total (impl : String → ToolArgs → Except String String)
    (name : String) (args : ToolArgs) :
    (TOOL_NAMES.contains name = false →
      executeTool impl name args = "Error: Unknown tool " ++ name) ∧
    (∀ e, TOOL_NAMES.contains name = true → impl name args = Except.error e →
      executeTool impl name args = "Error executing " ++ name ++ ": " ++ e) ∧
    (∀ r, TOOL_NAMES.contains name = true → impl name args = Except.ok r →
      executeTool impl name args = r) := by
  refine ⟨?_, ?_, ?_⟩
  · intro h
    unfold executeTool
    rw [if_neg (by simpa using h)]
  · intro e h1 h2
    unfold executeTool
    rw [if_pos (by simpa using h1), h2]
  · intro r h1 h2
    unfold executeTool
    rw [if_pos (by simpa using h1), h2]

/-- Witness for C10 at concrete inputs: an unknown tool, a throwing
implementation, and a successful one. -/
theorem executeTool_total_witness :
    executeTool (fun _ _ => Except.ok "done") "dance" { } = "Error: Unknown tool dance" ∧
    executeTool (fun _ _ => Except.error "boom") "read_file" { } =
      "Error executing read_file: boom" ∧
    executeTool (fun _ _ => Except.ok "done") "read_file" { } = "done" :=
  ⟨(executeTool_total (fun _ _ => Except.ok "done") "dance" { }).1 (by decide),
   (executeTool_total (fun _ _ => Except.error "boom") "read_file" { }).2.1 "boom"
     (by decide) rfl,
   (executeTool_total (fun _ _ => Except.ok "done") "read_file" { }).2.2 "done"
     (by decide) rfl⟩

/-- Membership in the allow-list survives any sequence of later decisions:
the only mutation the component applies is insertion on
approve-for-session. -/
theorem applyEvents_mem_mono (t : String) (al : List String)
    (evs : List (String × PermDecision)) (h : t ∈ al) : t ∈ applyEvents al evs := by
  induction evs generalizing al with
  | nil => exact h
  | cons ev evs ih =>
    rcases ev with ⟨t2, d⟩
    cases d with
    | approveOnce => exact ih al h
    | deny => exact ih al h
    | approveSession => exact ih (t2 :: al) (List.mem_cons_of_mem t2 h)

/-- C9: the permission check resolves immediately with approval for any
tool outside the dangerous set and for any tool already in the session
allow-list; once a tool is approved for session, every later check of that
tool resolves immediately no matter which decisions follow; and the
persisted session payload does not depend on the allow-list (it has no
field for it). -/
theorem permission_gate_spec (sessionAllowed : List String) (toolName : String) :
    (DANGEROUS_TOOLS.contains toolName = false →
      requestPermission sessionAllowed toolName = PermCheck.immediate true) ∧
    (sessionAllowed.contains toolName = true →
      requestPermission sessionAllowed toolName = PermCheck.immediate true) ∧
    (∀ evs : List (String × PermDecision),
      requestPermission
        (applyEvents (applyDecision sessionAllowed toolName PermDecision.approveSession).1 evs)
        toolName = PermCheck.immediate true) ∧
    (∀ (cfg : LoopCfg) (st : LoopSt) (al : List String),
      (saveSession cfg { st with sessionAllowed := al }).sessionFile =
        (saveSession cfg st).sessionFile) := by
  refine ⟨?_, ?_, ?_, ?_⟩
  · intro h
    unfold requestPermission
    split_ifs with h1 h2
    · rfl
    · rfl
    · simp at h
      exact absurd (by simpa using h2) h
  · intro h
    unfold requestPermission
    rw [if_pos (by simpa using h)]
  · intro evs
    have hmem : toolName ∈
        applyEvents (applyDecision sessionAllowed toolName PermDecision.approveSession).1 evs :=
      applyEvents_mem_mono toolName _ evs (by simp [applyDecision])
    unfold requestPermission
    rw [if_pos (by simpa using hmem)]
  · intro cfg st al
    unfold saveSession
    split_ifs <;> rfl

/-- Witness for C9 at concrete inputs: read_file is not dangerous;
write_file approved for session stays approved after later prompts. -/
theorem permission_gate_spec_witness :
    requestPermission [] "read_file" = PermCheck.immediate true ∧
    requestPermission ["run_command"] "run_command" = PermCheck.immediate true ∧
    requestPermission
      (applyEvents (applyDecision [] "write_file" PermDecision.approveSession).1
        [("stop_process", PermDecision.deny)]) "write_file" = PermCheck.immediate true :=
  ⟨(permission_gate_spec [] "read_file").1 (by decide),
   (permission_gate_spec ["run_command"] "run_command").2.1 (by decide),
   (permission_gate_spec [] "write_file").2.2.1 [("stop_process", PermDecision.deny)]⟩

/-! Theorems about the duplicate-server preemption. -/

/-- The preemption never grows the registry: its result is a sublist of the
input registry. -/
theorem autoKillDuplicate_sublist (patterns : List (List Char → Bool))
    (procs : List (String × BgProc)) (command : String) :
    List.Sublist (autoKillDuplicate patterns procs command).2 procs := by
  unfold autoKillDuplicate
  split_ifs with h
  · exact List.Sublist.refl _
  · split
    · exact List.Sublist.refl _
    · exact List.eraseP_sublist _

/-- C8: a command matching no server pattern never triggers preemption;
when the command matches a pattern and some running registered process
matches a compatible pattern, exactly the first such process is stopped and
removed (the registry shrinks by exactly one), the result names that
process, and the spawn paths of runCommand prepend this message to the
returned result so the caller is informed. -/
theorem autoKillDuplicate_spec (patterns : List (List Char → Bool))
    (procs : List (String × BgProc)) (command : String) :
    (patterns.any (fun p => testPattern p command) = false →
      autoKillDuplicate patterns procs command = (none, procs)) ∧
    (procs.find? (fun e => sameServerType patterns command e.2) = none →
      autoKillDuplicate patterns procs command = (none, procs)) ∧
    (∀ e, patterns.any (fun p => testPattern p command) = true →
      procs.find? (fun e2 => sameServerType patterns command e2.2) = some e →
      (autoKillDuplicate patterns procs command).1 =
        some ("Auto-stopped previous server " ++ e.1 ++ " (" ++ e.2.command ++ ")") ∧
      (autoKillDuplicate patterns procs command).2 =
        procs.eraseP (fun x => decide (x.1 = e.1)) ∧
      sameServerType patterns command e.2 = true ∧ e ∈ procs ∧
      (autoKillDuplicate patterns procs command).2.length + 1 = procs.length) ∧
    (∀ (st : SupState) (fs : String → PathKind) (ecwd : String) (cap : ExecCapture)
        (now : Nat) (m : String) (success : Bool) (exitCode : Nat) (em : String),
      cdTarget command = none →
      lowerS (jsTrimS command) ≠ "cd" →
      (autoKillDuplicate SERVER_PATTERNS st.processes command).1 = some m →
      ∃ rest,
        (runCommandBody st fs command ecwd cap
          (ExecOutcome.finished success exitCode em) now).1 = m ++ "\n" ++ rest) := by
  refine ⟨?_, ?_, ?_, ?_⟩
  · intro h
    unfold autoKillDuplicate
    rw [if_pos (by simp [h])]
  · intro h
    unfold autoKillDuplicate
    split_ifs with h1
    · rfl
    · rw [h]
  · intro e hserver hfind
    have hmem : e ∈ procs := List.mem_of_find?_eq_some hfind
    have hsame : sameServerType patterns command e.2 = true := by
      have h2 := List.find?_some hfind
      simpa using h2
    have hkillEq : autoKillDuplicate patterns procs command =
        (some ("Auto-stopped previous server " ++ e.1 ++ " (" ++ e.2.command ++ ")"),
          procs.eraseP (fun x => decide (x.1 = e.1))) := by
      unfold autoKillDuplicate
      rw [if_neg (by simp [hserver]), hfind]
    refine ⟨by rw [hkillEq], by rw [hkillEq], hsame, hmem, ?_⟩
    rw [hkillEq]
    have hlen : (procs.eraseP (fun x => decide (x.1 = e.1))).length = procs.length - 1 :=
      List.length_eraseP_of_mem hmem (by simp)
    have hpos : 0 < procs.length := List.length_pos.mpr (List.ne_nil_of_mem hmem)
    simp only [hlen]
    omega
  · intro st fs ecwd cap now m success exitCode em hcd hbare hkill
    unfold runCommandBody
    rw [hcd]
    rw [if_neg hbare]
    simp only [hkill]
    cases success with
    | true => exact ⟨_, rfl⟩
    | false => exact ⟨_, rfl⟩

/-- A registered running dev server used in the witness. -/
def devServerProc : BgProc :=
  { command := "npm run dev", startTime := 0, stdout := "", stderr := "",
    running := true, exitCode := none, port := some 5173, pid := some 101 }

/-- Witness for C8 at concrete inputs: starting npm run dev while a
registered npm run dev process is running stops exactly that process. -/
theorem autoKillDuplicate_spec_witness :
    (autoKillDuplicate SERVER_PATTERNS [("bg_1", devServerProc)] "npm run dev").1 =
      some ("Auto-stopped previous server " ++ "bg_1" ++ " (" ++ devServerProc.command ++ ")") ∧
    (autoKillDuplicate SERVER_PATTERNS [("bg_1", devServerProc)] "npm run dev").2 =
      ([("bg_1", devServerProc)] : List (String × BgProc)).eraseP
        (fun x => decide (x.1 = "bg_1")) ∧
    sameServerType SERVER_PATTERNS "npm run dev" devServerProc = true ∧
    ("bg_1", devServerProc) ∈ [("bg_1", devServerProc)] ∧
    (autoKillDuplicate SERVER_PATTERNS [("bg_1", devServerProc)] "npm run dev").2.length + 1 =
      ([("bg_1", devServerProc)] : List (String × BgProc)).length :=
  (autoKillDuplicate_spec SERVER_PATTERNS [("bg_1", devServerProc)] "npm run dev").2.2.1
    ("bg_1", devServerProc) (by decide) (by decide)

/-! Theorems about runCommand and the background registry. -/

/-- JS Map.set with a fresh key appends exactly one entry. -/
theorem mapSet_fresh (m : List (String × BgProc)) (k : String) (v : BgProc)
    (h : ∀ e ∈ m, e.1 ≠ k) : mapSet m k v = m ++ [(k, v)] := by
  have hany : m.any (fun e => decide (e.1 = k)) = false := by
    rw [List.any_eq_false]
    intro e he
    simpa using h e he
  unfold mapSet
  rw [if_neg (by simp [hany])]

/-- Every entry of a Map.set result is the new pair or an old entry. -/
theorem mem_mapSet (m : List (String × BgProc)) (k : String) (v : BgProc)
    (e : String × BgProc) (h : e ∈ mapSet m k v) : e = (k, v) ∨ e ∈ m := by
  unfold mapSet at h
  split_ifs at h with hm
  · rcases List.mem_map.1 h with ⟨e2, he2, hfe⟩
    by_cases hk : e2.1 = k
    · simp only [hk, if_true] at hfe
      exact Or.inl hfe.symm
    · simp only [hk, if_false] at hfe
      exact Or.inr (hfe ▸ he2)
  · rcases List.mem_append.1 h with h1 | h2
    · exact Or.inr h1
    · exact Or.inl (by simpa using h2)

/-- The BackgroundProcess entry registered at the timeout (the BgProcess
literal of src/unnamed/part_005 lines 242-249). -/
def bgEntry (command : String) (cap : ExecCapture) (now : Nat) : BgProc :=
  { command := command, startTime := now, stdout := cap.stdout,
    stderr := cap.stderr, running := true, exitCode := none,
    port :=
      match extractPort command with
      | some p => some p
      | none => extractPort (cap.stdout ++ cap.stderr),
    pid := cap.pid }

/-- State equation of the backgrounded branch. -/
theorem runCommandBody_timedOut_eq (st : SupState) (fs : String → PathKind)
    (command ecwd : String) (cap : ExecCapture) (now : Nat)
    (hcd : cdTarget command = none) (hbare : lowerS (jsTrimS command) ≠ "cd") :
    (runCommandBody st fs command ecwd cap ExecOutcome.timedOut now).2 =
      { st with
        processes := mapSet (autoKillDuplicate SERVER_PATTERNS st.processes command).2
          (procId st.nextProcId) (bgEntry command cap now),
        nextProcId := st.nextProcId + 1 } := by
  unfold runCommandBody
  rw [hcd, if_neg hbare]
  rfl

/-- State equation of the finished branch. -/
theorem runCommandBody_finished_eq (st : SupState) (fs : String → PathKind)
    (command ecwd : String) (cap : ExecCapture) (now : Nat)
    (success : Bool) (exitCode : Nat) (em : String)
    (hcd : cdTarget command = none) (hbare : lowerS (jsTrimS command) ≠ "cd") :
    (runCommandBody st fs command ecwd cap (ExecOutcome.finished success exitCode em) now).2 =
      { st with processes := (autoKillDuplicate SERVER_PATTERNS st.processes command).2 } := by
  unfold runCommandBody
  rw [hcd, if_neg hbare]
  cases success <;> rfl

/-- State equation of the spawn-failure branch. -/
theorem runCommandBody_threw_eq (st : SupState) (fs : String → PathKind)
    (command ecwd : String) (cap : ExecCapture) (now : Nat)
    (exitCode : Nat) (em : String)
    (hcd : cdTarget command = none) (hbare : lowerS (jsTrimS command) ≠ "cd") :
    (runCommandBody st fs command ecwd cap (ExecOutcome.threw exitCode em) now).2 =
      { st with processes := (autoKillDuplicate SERVER_PATTERNS st.processes command).2 } := by
  unfold runCommandBody
  rw [hcd, if_neg hbare]

/-- The cd branches leave the registry and the id counter unchanged. -/
theorem runCommandBody_cd_state (st : SupState) (fs : String → PathKind)
    (command ecwd : String) (cap : ExecCapture) (outcome : ExecOutcome) (now : Nat)
    (h : cdTarget command ≠ none ∨ lowerS (jsTrimS command) = "cd") :
    (runCommandBody st fs command ecwd cap outcome now).2.processes = st.processes ∧
    (runCommandBody st fs command ecwd cap outcome now).2.nextProcId = st.nextProcId := by
  cases hcd : cdTarget command with
  | some target =>
    have hred : runCommandBody st fs command ecwd cap outcome now =
        (if fs (resolvePath st.cwd target) = PathKind.dir then
          ("CWD: " ++ resolvePath st.cwd target, { st with cwd := resolvePath st.cwd target })
        else
          ("ERROR: Directory not found\nPath: " ++ resolvePath st.cwd target, st)) := by
      unfold runCommandBody
      rw [hcd]
    rw [hred]
    split_ifs
    · exact ⟨rfl, rfl⟩
    · exact ⟨rfl, rfl⟩
  | none =>
    rcases h with h1 | h2
    · exact absurd hcd h1
    · have hred : runCommandBody st fs command ecwd cap outcome now =
          ("CWD: " ++ st.cwd, st) := by
        unfold runCommandBody
        rw [hcd, if_pos h2]
      rw [hred]
      exact ⟨rfl, rfl⟩

/-- C7: the run call races completion against the foreground timeout. A
command that completes in time (or fails the cwd validation, or is a cd)
never creates a registry entry and consumes no identifier; one that times
out after reaching the spawn registers exactly one new entry, keyed
bg_(nextProcId) with the counter then incremented, whose buffers hold the
output captured before the timeout fired; the identifier counter never
decreases and every registered id stays a bg_k with k below the counter, so
successive backgrounded commands receive strictly increasing fresh
identifiers bg_1, bg_2, and so on from the initial counter 1. -/
theorem runCommand_spec (st : SupState) (fs : String → PathKind) (command : String)
    (cwdOverride : Option String) (cap : ExecCapture) (outcome : ExecOutcome) (now : Nat) :
    (outcome ≠ ExecOutcome.timedOut →
      List.Sublist (runCommand st fs command cwdOverride cap outcome now).2.processes
        st.processes ∧
      (runCommand st fs command cwdOverride cap outcome now).2.nextProcId = st.nextProcId) ∧
    (st.nextProcId ≤ (runCommand st fs command cwdOverride cap outcome now).2.nextProcId) ∧
    ((∀ e ∈ st.processes, ∃ k, e.1 = procId k ∧ k < st.nextProcId) →
      ∀ e ∈ (runCommand st fs command cwdOverride cap outcome now).2.processes,
        ∃ k, e.1 = procId k ∧
          k < (runCommand st fs command cwdOverride cap outcome now).2.nextProcId) ∧
    (outcome = ExecOutcome.timedOut →
      cdTarget command = none →
      lowerS (jsTrimS command) ≠ "cd" →
      (∀ c, cwdOverride = some c → fs (resolvePath st.cwd c) = PathKind.dir) →
      (∀ e ∈ st.processes, ∃ k, e.1 = procId k ∧ k < st.nextProcId) →
      (runCommand st fs command cwdOverride cap outcome now).2.processes =
        (autoKillDuplicate SERVER_PATTERNS st.processes command).2 ++
          [(procId st.nextProcId, bgEntry command cap now)] ∧
      (bgEntry command cap now).stdout = cap.stdout ∧
      (bgEntry command cap now).stderr = cap.stderr ∧
      (bgEntry command cap now).command = command ∧
      (bgEntry command cap now).running = true ∧
      (runCommand st fs command cwdOverride cap outcome now).2.nextProcId =
        st.nextProcId + 1) := by
  have hbody : ∀ ecwd,
      (outcome ≠ ExecOutcome.timedOut →
        List.Sublist (runCommandBody st fs command ecwd cap outcome now).2.processes
          st.processes ∧
        (runCommandBody st fs command ecwd cap outcome now).2.nextProcId = st.nextProcId) ∧
      (st.nextProcId ≤ (runCommandBody st fs command ecwd cap outcome now).2.nextProcId) ∧
      ((∀ e ∈ st.processes, ∃ k, e.1 = procId k ∧ k < st.nextProcId) →
        ∀ e ∈ (runCommandBody st fs command ecwd cap outcome now).2.processes,
          ∃ k, e.1 = procId k ∧
            k < (runCommandBody st fs command ecwd cap outcome now).2.nextProcId) ∧
      (outcome = ExecOutcome.timedOut →
        cdTarget command = none →
        lowerS (jsTrimS command) ≠ "cd" →
        (∀ e ∈ st.processes, ∃ k, e.1 = procId k ∧ k < st.nextProcId) →
        (runCommandBody st fs command ecwd cap outcome now).2.processes =
          (autoKillDuplicate SERVER_PATTERNS st.processes command).2 ++
            [(procId st.nextProcId, bgEntry command cap now)] ∧
        (runCommandBody st fs command ecwd cap outcome now).2.nextProcId =
          st.nextProcId + 1) := by
    intro ecwd
    by_cases hcdall : cdTarget command ≠ none ∨ lowerS (jsTrimS command) = "cd"
    · obtain ⟨hp, hn⟩ := runCommandBody_cd_state st fs command ecwd cap outcome now hcdall
      refine ⟨fun _ => ⟨by rw [hp], hn⟩, by omega, ?_, ?_⟩
      · intro hinv e he
        rw [hp] at he
        rcases hinv e he with ⟨k, hk, hlt⟩
        exact ⟨k, hk, by omega⟩
      · intro _ hcd hbare _
        rcases hcdall with h1 | h2
        · exact absurd hcd h1
        · exact absurd h2 hbare
    · push_neg at hcdall
      obtain ⟨hcd0, hbare0⟩ := hcdall
      have hsub := autoKillDuplicate_sublist SERVER_PATTERNS st.processes command
      cases outcome with
      | finished success exitCode em =>
        have heq := runCommandBody_finished_eq st fs command ecwd cap now success exitCode em
          hcd0 hbare0
        refine ⟨fun _ => ⟨by rw [heq]; exact hsub, by rw [heq]⟩,
          by rw [heq], ?_, ?_⟩
        · intro hinv e he
          rw [heq] at he ⊢
          rcases hinv e (hsub.subset he) with ⟨k, hk, hlt⟩
          exact ⟨k, hk, hlt⟩
        · intro habs
          exact absurd habs (by simp)
      | threw exitCode em =>
        have heq := runCommandBody_threw_eq st fs command ecwd cap now exitCode em hcd0 hbare0
        refine ⟨fun _ => ⟨by rw [heq]; exact hsub, by rw [heq]⟩,
          by rw [heq], ?_, ?_⟩
        · intro hinv e he
          rw [heq] at he ⊢
          rcases hinv e (hsub.subset he) with ⟨k, hk, hlt⟩
          exact ⟨k, hk, hlt⟩
        · intro habs
          exact absurd habs (by simp)
      | timedOut =>
        have heq := runCommandBody_timedOut_eq st fs command ecwd cap now hcd0 hbare0
        refine ⟨fun habs => absurd rfl habs, by rw [heq]; exact Nat.le_succ _, ?_, ?_⟩
        · intro hinv e he
          rw [heq] at he ⊢
          rcases mem_mapSet _ _ _ e he with h1 | h2
          · exact ⟨st.nextProcId, by rw [h1], Nat.lt_succ_self _⟩
          · rcases hinv e (hsub.subset h2) with ⟨k, hk, hlt⟩
            exact ⟨k, hk, Nat.lt_succ_of_lt hlt⟩
        · intro _ _ _ hinv
          have hfresh : ∀ e ∈ (autoKillDuplicate SERVER_PATTERNS st.processes command).2,
              e.1 ≠ procId st.nextProcId := by
            intro e he hbad
            rcases hinv e (hsub.subset he) with ⟨k, hk, hlt⟩
            rw [hk] at hbad
            exact absurd (procId_injective k st.nextProcId hbad) (by omega)
          rw [heq]
          constructor
          · simp only
            rw [mapSet_fresh _ _ _ hfresh]
          · rfl
  cases cwdOverride with
  | none =>
    have hred : runCommand st fs command none cap outcome now =
        runCommandBody st fs command st.cwd cap outcome now := rfl
    rw [hred]
    have hb := hbody st.cwd
    refine ⟨hb.1, hb.2.1, hb.2.2.1, ?_⟩
    intro h1 h2 h3 _ h5
    have h4 := hb.2.2.2 h1 h2 h3 h5
    exact ⟨h4.1, rfl, rfl, rfl, rfl, h4.2⟩
  | some c =>
    cases hfs : fs (resolvePath st.cwd c) with
    | missing =>
      have hred : runCommand st fs command (some c) cap outcome now =
          ("ERROR: Directory not found\nPath: " ++ resolvePath st.cwd c, st) := by
        unfold runCommand
        simp only [hfs]
      rw [hred]
      refine ⟨fun _ => ⟨List.Sublist.refl _, rfl⟩, Nat.le_refl _, ?_, ?_⟩
      · intro hinv e he
        exact hinv e he
      · intro _ _ _ hcwd _
        have hdir := hcwd c rfl
        rw [hfs] at hdir
        simp at hdir
    | file =>
      have hred : runCommand st fs command (some c) cap outcome now =
          ("ERROR: Not a directory\nPath: " ++ resolvePath st.cwd c, st) := by
        unfold runCommand
        simp only [hfs]
      rw [hred]
      refine ⟨fun _ => ⟨List.Sublist.refl _, rfl⟩, Nat.le_refl _, ?_, ?_⟩
      · intro hinv e he
        exact hinv e he
      · intro _ _ _ hcwd _
        have hdir := hcwd c rfl
        rw [hfs] at hdir
        simp at hdir
    | dir =>
      have hred : runCommand st fs command (some c) cap outcome now =
          runCommandBody st fs command (resolvePath st.cwd c) cap outcome now := by
        unfold runCommand
        simp only [hfs]
      rw [hred]
      have hb := hbody (resolvePath st.cwd c)
      refine ⟨hb.1, hb.2.1, hb.2.2.1, ?_⟩
      intro h1 h2 h3 _ h5
      have h4 := hb.2.2.2 h1 h2 h3 h5
      exact ⟨h4.1, rfl, rfl, rfl, rfl, h4.2⟩

/-- A fresh supervisor state used in the witness. -/
def supSt0 : SupState := { cwd := "/work", processes := [], nextProcId := 1 }

/-- Captured output used in the witness. -/
def cap0 : ExecCapture := { stdout := "starting...", stderr := "", pid := some 7 }

/-- A filesystem oracle where every path is a directory. -/
def fsAll : String → PathKind := fun _ => PathKind.dir

/-- Witness for C7 at concrete inputs: a finished ls leaves the registry
alone; a timed-out sleep registers exactly one bg_1 entry with the captured
buffers and bumps the counter. -/
theorem runCommand_spec_witness :
    (List.Sublist
      (runCommand supSt0 fsAll "ls" none cap0 (ExecOutcome.finished true 0 "") 5).2.processes
      supSt0.processes ∧
      (runCommand supSt0 fsAll "ls" none cap0
        (ExecOutcome.finished true 0 "") 5).2.nextProcId = supSt0.nextProcId) ∧
    ((runCommand supSt0 fsAll "sleep 999" none cap0 ExecOutcome.timedOut 5).2.processes =
        (autoKillDuplicate SERVER_PATTERNS supSt0.processes "sleep 999").2 ++
          [(procId supSt0.nextProcId, bgEntry "sleep 999" cap0 5)] ∧
      (runCommand supSt0 fsAll "sleep 999" none cap0 ExecOutcome.timedOut 5).2.nextProcId =
        supSt0.nextProcId + 1) := by
  refine ⟨(runCommand_spec supSt0 fsAll "ls" none cap0
    (ExecOutcome.finished true 0 "") 5).1 (by decide), ?_⟩
  have h := (runCommand_spec supSt0 fsAll "sleep 999" none cap0 ExecOutcome.timedOut 5).2.2.2
    rfl (by decide) (by decide) (fun c hc => by cases hc)
    (by intro e he; simp [supSt0] at he)
  exact ⟨h.1, h.2.2.2.2.2⟩

/-! Field-preservation lemmas for the loop steps. -/

/-- Display pushes do not change the call counter. -/
@[simp] theorem pushDisplay_calls (st : LoopSt) (m : Message) :
    (pushDisplay st m).calls = st.calls := rfl

/-- Display pushes do not change the compaction counter. -/
@[simp] theorem pushDisplay_compactions (st : LoopSt) (m : Message) :
    (pushDisplay st m).compactions = st.compactions := rfl

/-- Display pushes do not change the history. -/
@[simp] theorem pushDisplay_history (st : LoopSt) (m : Message) :
    (pushDisplay st m).history = st.history := rfl

/-- Display pushes do not change the allow-list. -/
@[simp] theorem pushDisplay_sessionAllowed (st : LoopSt) (m : Message) :
    (pushDisplay st m).sessionAllowed = st.sessionAllowed := rfl

/-- Display pushes do not change the executed-tool counter. -/
@[simp] theorem pushDisplay_execs (st : LoopSt) (m : Message) :
    (pushDisplay st m).execs = st.execs := rfl

/-- Saving the session does not change the call counter. -/
@[simp] theorem saveSession_calls (cfg : LoopCfg) (st : LoopSt) :
    (saveSession cfg st).calls = st.calls := by
  unfold saveSession
  split_ifs <;> rfl

/-- Saving the session does not change the compaction counter. -/
@[simp] theorem saveSession_compactions (cfg : LoopCfg) (st : LoopSt) :
    (saveSession cfg st).compactions = st.compactions := by
  unfold saveSession
  split_ifs <;> rfl

/-- Saving the session does not change the history. -/
@[simp] theorem saveSession_history (cfg : LoopCfg) (st : LoopSt) :
    (saveSession cfg st).history = st.history := by
  unfold saveSession
  split_ifs <;> rfl

/-- Saving the session does not change the executed-tool counter. -/
@[simp] theorem saveSession_execs (cfg : LoopCfg) (st : LoopSt) :
    (saveSession cfg st).execs = st.execs := by
  unfold saveSession
  split_ifs <;> rfl

/-- Backing up does not change the call counter. -/
@[simp] theorem backupSession_calls (cfg : LoopCfg) (st : LoopSt) :
    (backupSession cfg st).calls = st.calls := by
  unfold backupSession
  split_ifs
  · split <;> rfl
  · rfl

/-- Backing up does not change the compaction counter. -/
@[simp] theorem backupSession_compactions (cfg : LoopCfg) (st : LoopSt) :
    (backupSession cfg st).compactions = st.compactions := by
  unfold backupSession
  split_ifs
  · split <;> rfl
  · rfl

/-- Backing up does not change the history. -/
@[simp] theorem backupSession_history (cfg : LoopCfg) (st : LoopSt) :
    (backupSession cfg st).history = st.history := by
  unfold backupSession
  split_ifs
  · split <;> rfl
  · rfl

/-- Backing up does not change the executed-tool counter. -/
@[simp] theorem backupSession_execs (cfg : LoopCfg) (st : LoopSt) :
    (backupSession cfg st).execs = st.execs := by
  unfold backupSession
  split_ifs
  · split <;> rfl
  · rfl

/-- The summarization step issues no loop-counted provider call. -/
@[simp] theorem summarizeStep_calls (cfg : LoopCfg) (st : LoopSt) :
    (summarizeStep cfg st).calls = st.calls := by
  unfold summarizeStep
  dsimp only
  split
  · simp
  · split
    · split_ifs <;> simp
    · simp

/-- The summarization step performs exactly one compaction. -/
@[simp] theorem summarizeStep_compactions (cfg : LoopCfg) (st : LoopSt) :
    (summarizeStep cfg st).compactions = st.compactions + 1 := by
  unfold summarizeStep
  dsimp only
  split
  · simp
  · split
    · split_ifs <;> simp
    · simp

/-- The summarization step executes no tool. -/
@[simp] theorem summarizeStep_execs (cfg : LoopCfg) (st : LoopSt) :
    (summarizeStep cfg st).execs = st.execs := by
  unfold summarizeStep
  dsimp only
  split
  · simp
  · split
    · split_ifs <;> simp
    · simp

/-- The budget check issues no loop-counted provider call. -/
@[simp] theorem ensureFitsStep_calls (cfg : LoopCfg) (st : LoopSt) :
    (ensureFitsStep cfg st).calls = st.calls := by
  unfold ensureFitsStep
  dsimp only
  split_ifs <;> simp

/-- The budget check executes no tool. -/
@[simp] theorem ensureFitsStep_execs (cfg : LoopCfg) (st : LoopSt) :
    (ensureFitsStep cfg st).execs = st.execs := by
  unfold ensureFitsStep
  dsimp only
  split_ifs <;> simp

/-- The sequential tool loop issues no provider call. -/
theorem execCalls_calls (cfg : LoopCfg) :
    ∀ (l : List ToolCall) (st : LoopSt), (execCalls cfg st l).1.calls = st.calls := by
  intro l
  induction l with
  | nil => intro st; rfl
  | cons call rest ih =>
    intro st
    unfold execCalls
    split_ifs with hab
    · rfl
    · cases hperm : requestPermission st.sessionAllowed call.name with
      | immediate b =>
        simp only [hperm]
        split_ifs with hb
        · rw [ih]; simp
        · rw [ih]; simp
      | suspend =>
        simp only [hperm]
        split_ifs with hb
        · rw [ih]; simp
        · rw [ih]; simp

/-! Unfolding equations and counter monotonicity for processResponse. -/

/-- At or beyond the depth limit the loop only posts the notification. -/
theorem processResponse_limit (cfg : LoopCfg) (st : LoopSt) (depth : Nat)
    (h : MAX_TOOL_DEPTH ≤ depth) :
    processResponse cfg st depth = pushDisplay st (sysMsg "Tool call depth limit reached.") := by
  rw [processResponse]
  rw [if_pos h]

/-- Below the limit with the abort signal set, the loop only posts the
cancellation notification. -/
theorem processResponse_cancelled (cfg : LoopCfg) (st : LoopSt) (depth : Nat)
    (hd : depth < MAX_TOOL_DEPTH) (hab : cfg.aborted = true) :
    processResponse cfg st depth = pushDisplay st (sysMsg "Request cancelled.") := by
  rw [processResponse]
  rw [if_neg (by omega), if_pos hab]

/-- One active step of the loop: below the limit and not aborted, the
budget check runs, one provider response is consumed, and the response is
interpreted. -/
theorem processResponse_active (cfg : LoopCfg) (st : LoopSt) (depth : Nat)
    (hd : depth < MAX_TOOL_DEPTH) (hab : cfg.aborted = false) :
    processResponse cfg st depth =
      (let st1 := ensureFitsStep cfg st
       let st2 := { st1 with calls := st1.calls + 1 }
       match cfg.provider st1.calls with
       | ChatResponse.error c =>
         if containsSub c "cancelled by user" || cfg.aborted then
           pushDisplay st2 (sysMsg "Request cancelled.")
         else if containsSub c "413" || containsSub c "Request too large" ||
             containsSub c "tokens per minute" then
           processResponse cfg
             (summarizeStep cfg (pushDisplay st2 (sysMsg "Hit token limit, auto-compacting...")))
             (depth + 1)
         else
           let st3 := pushDisplay st2 (sysMsg ("Error: " ++ c))
           { st3 with history := st3.history ++ [{ role := Role.assistant, content := c }] }
       | ChatResponse.text c =>
         let amsg : Message := { role := Role.assistant, content := c }
         let st3 := pushDisplay st2 amsg
         let st4 := { st3 with history := st3.history ++ [amsg] }
         saveSession cfg st4
       | ChatResponse.toolUse c calls =>
         let amsg : Message := { role := Role.assistant, content := c, tool_calls := some calls }
         let st3 := pushDisplay st2 amsg
         let st4 := { st3 with history := st3.history ++ [amsg] }
         match execCalls cfg st4 calls with
         | (st5, true) => st5
         | (st5, false) => processResponse cfg st5 (depth + 1)) := by
  rw [processResponse]
  rw [if_neg (by omega), if_neg (by simp [hab])]

/-- The loop call counter never decreases, and an active entry (below the
limit, not aborted) consumes at least one provider call. -/
theorem processResponse_calls_le (cfg : LoopCfg) :
    ∀ (fuel depth : Nat), MAX_TOOL_DEPTH - depth ≤ fuel → ∀ st : LoopSt,
      st.calls ≤ (processResponse cfg st depth).calls ∧
      (depth < MAX_TOOL_DEPTH → cfg.aborted = false →
        st.calls < (processResponse cfg st depth).calls) := by
  intro fuel
  induction fuel with
  | zero =>
    intro depth hle st
    have hge : MAX_TOOL_DEPTH ≤ depth := by
      simp only [MAX_TOOL_DEPTH] at hle ⊢
      omega
    rw [processResponse_limit cfg st depth hge]
    exact ⟨by simp, fun hlt _ => absurd hge (by omega)⟩
  | succ f ih =>
    intro depth hle st
    by_cases hge : MAX_TOOL_DEPTH ≤ depth
    · rw [processResponse_limit cfg st depth hge]
      exact ⟨by simp, fun hlt _ => absurd hge (by omega)⟩
    · push_neg at hge
      by_cases hab : cfg.aborted = true
      · rw [processResponse_cancelled cfg st depth hge hab]
        refine ⟨by simp, fun _ hab2 => ?_⟩
        rw [hab2] at hab
        cases hab
      · have hab' : cfg.aborted = false := by
          revert hab
          cases cfg.aborted <;> simp
        rw [processResponse_active cfg st depth hge hab']
        have hbound : MAX_TOOL_DEPTH - (depth + 1) ≤ f := by
          simp only [MAX_TOOL_DEPTH] at hle ⊢
          omega
        cases hresp : cfg.provider (ensureFitsStep cfg st).calls with
        | error c =>
          simp only [hresp]
          split_ifs with h1 h2
          · constructor
            · simp
            · intro _ _
              simp
          · have hih := ih (depth + 1) hbound
              (summarizeStep cfg (pushDisplay
                { ensureFitsStep cfg st with calls := (ensureFitsStep cfg st).calls + 1 }
                (sysMsg "Hit token limit, auto-compacting...")))
            have hc : (summarizeStep cfg (pushDisplay
                { ensureFitsStep cfg st with calls := (ensureFitsStep cfg st).calls + 1 }
                (sysMsg "Hit token limit, auto-compacting..."))).calls = st.calls + 1 := by
              simp
            constructor
            · calc st.calls ≤ st.calls + 1 := Nat.le_succ _
                _ ≤ _ := by rw [← hc]; exact hih.1
            · intro _ _
              calc st.calls < st.calls + 1 := Nat.lt_succ_self _
                _ ≤ _ := by rw [← hc]; exact hih.1
          · constructor
            · simp
            · intro _ _
              simp
        | text c =>
          simp only [hresp]
          constructor
          · simp
          · intro _ _
            simp
        | toolUse c calls =>
          simp only [hresp]
          split
          next st5 heq =>
            have h0 := congrArg (fun p => (p.1).calls) heq
            simp [execCalls_calls] at h0
            exact ⟨by omega, fun _ _ => by omega⟩
          next st5 heq =>
            have h0 := congrArg (fun p => (p.1).calls) heq
            simp [execCalls_calls] at h0
            have hih := (ih (depth + 1) hbound st5).1
            exact ⟨by omega, fun _ _ => by omega⟩

/-- C5: at depth at least 15 (MAX_TOOL_DEPTH), the loop emits the depth
limit notification and returns with no provider call, no compaction and no
tool execution; below the limit (and not cancelled) the turn proceeds,
issuing at least one provider call. -/
theorem processResponse_depth_guard (cfg : LoopCfg) (st : LoopSt) (depth : Nat) :
    (MAX_TOOL_DEPTH ≤ depth →
      processResponse cfg st depth = pushDisplay st (sysMsg "Tool call depth limit reached.") ∧
      (processResponse cfg st depth).calls = st.calls ∧
      (processResponse cfg st depth).compactions = st.compactions ∧
      (processResponse cfg st depth).execs = st.execs) ∧
    (depth < MAX_TOOL_DEPTH → cfg.aborted = false →
      st.calls < (processResponse cfg st depth).calls) := by
  constructor
  · intro h
    rw [processResponse_limit cfg st depth h]
    exact ⟨rfl, by simp, by simp, by simp⟩
  · intro h1 h2
    exact (processResponse_calls_le cfg MAX_TOOL_DEPTH depth (Nat.sub_le _ _) st).2 h1 h2

/-- A turn configuration whose provider replies with text, used in
witnesses. -/
def cfgText : LoopCfg :=
  { maxTokens := 100000, sysPrompt := none, model := "qwen-2.5-coder-32b", cwd := "/w",
    aborted := false, uiPct := 0, provider := fun _ => ChatResponse.text "ok",
    summary := fun _ => Except.error (), decisions := fun _ => PermDecision.deny,
    execResults := fun _ => "", fsOk := false }

/-- A small starting loop state. -/
def stW : LoopSt :=
  { history := [msgU], display := [], sessionAllowed := [], sessionFile := none,
    backupFile := none, calls := 0, compactions := 0, prompts := 0, execs := 0 }

/-- Witness for C5 at concrete inputs: depth 15 stops with only the
notification; depth 0 issues a provider call. -/
theorem processResponse_depth_guard_witness :
    processResponse cfgText stW 15 = pushDisplay stW (sysMsg "Tool call depth limit reached.") ∧
    stW.calls < (processResponse cfgText stW 0).calls :=
  ⟨((processResponse_depth_guard cfgText stW 15).1 (by decide)).1,
    (processResponse_depth_guard cfgText stW 0).2 (by decide) rfl⟩

/-- C4 as amended: when the provider returns an error below the depth limit
on a non-aborted turn, an error text matching a capacity signature (and not
recognized as a user cancellation) triggers exactly one compaction and one
retry of the same turn at depth plus one; an error matching no capacity
signature is terminal: no compaction, no retry, the error is surfaced as a
notification and its text is appended to the conversation as an assistant
message. -/
theorem processResponse_error_handling (cfg : LoopCfg) (st : LoopSt) (depth : Nat) (c : String)
    (hd : depth < MAX_TOOL_DEPTH) (hab : cfg.aborted = false)
    (hresp : cfg.provider (ensureFitsStep cfg st).calls = ChatResponse.error c)
    (hcanc : containsSub c "cancelled by user" = false) :
    ((containsSub c "413" || containsSub c "Request too large" ||
        containsSub c "tokens per minute") = true →
      processResponse cfg st depth =
        processResponse cfg
          (summarizeStep cfg (pushDisplay
            { ensureFitsStep cfg st with calls := (ensureFitsStep cfg st).calls + 1 }
            (sysMsg "Hit token limit, auto-compacting...")))
          (depth + 1) ∧
      (summarizeStep cfg (pushDisplay
        { ensureFitsStep cfg st with calls := (ensureFitsStep cfg st).calls + 1 }
        (sysMsg "Hit token limit, auto-compacting..."))).compactions =
        (ensureFitsStep cfg st).compactions + 1) ∧
    ((containsSub c "413" || containsSub c "Request too large" ||
        containsSub c "tokens per minute") = false →
      processResponse cfg st depth =
        { pushDisplay { ensureFitsStep cfg st with calls := (ensureFitsStep cfg st).calls + 1 }
            (sysMsg ("Error: " ++ c)) with
          history := (ensureFitsStep cfg st).history ++
            [{ role := Role.assistant, content := c }] } ∧
      (processResponse cfg st depth).compactions = (ensureFitsStep cfg st).compactions) := by
  constructor
  · intro hcap
    have heq : processResponse cfg st depth =
        processResponse cfg
          (summarizeStep cfg (pushDisplay
            { ensureFitsStep cfg st with calls := (ensureFitsStep cfg st).calls + 1 }
            (sysMsg "Hit token limit, auto-compacting...")))
          (depth + 1) := by
      rw [processResponse_active cfg st depth hd hab]
      simp only [hresp]
      rw [if_neg (by simp [hcanc, hab]), if_pos hcap]
    exact ⟨heq, by simp⟩
  · intro hcap
    have heq : processResponse cfg st depth =
        { pushDisplay { ensureFitsStep cfg st with calls := (ensureFitsStep cfg st).calls + 1 }
            (sysMsg ("Error: " ++ c)) with
          history := (ensureFitsStep cfg st).history ++
            [{ role := Role.assistant, content := c }] } := by
      rw [processResponse_active cfg st depth hd hab]
      simp only [hresp]
      rw [if_neg (by simp [hcanc, hab]), if_neg (by simp [hcap])]
      simp
    refine ⟨heq, ?_⟩
    rw [heq]
    simp

/-- A turn configuration whose provider reports a plain error. -/
def cfgBoom : LoopCfg :=
  { cfgText with provider := fun _ => ChatResponse.error "boom" }

/-- A turn configuration whose provider reports a capacity error phrased as
a cancellation. -/
def cfgCancel413 : LoopCfg :=
  { cfgText with provider := fun _ => ChatResponse.error "Request cancelled by user. (413)" }

/-- A turn configuration whose provider reports a capacity error. -/
def cfg413 : LoopCfg :=
  { cfgText with provider := fun _ => ChatResponse.error "413 Request too large" }

/-- C4 counterexample, two parts. First, a terminal (non-capacity) error
does not leave the conversation intact: the error text is appended to the
history as an assistant message. Second, an error text that matches the
capacity signature but also contains the cancellation marker takes the
cancellation branch first: no compaction and no retry happen, contradicting
the claim that every capacity-matching error triggers compaction. -/
theorem processResponse_error_claim_false :
    ((processResponse cfgBoom stW 0).history =
        [msgU, { role := Role.assistant, content := "boom" }] ∧
      (processResponse cfgBoom stW 0).history ≠ stW.history) ∧
    ((processResponse cfgCancel413 stW 0).compactions = 0 ∧
      containsSub "Request cancelled by user. (413)" "413" = true ∧
      containsSub "Request cancelled by user. (413)" "cancelled by user" = true) := by
  constructor
  · rw [processResponse_active cfgBoom stW 0 (by decide) rfl]
    decide
  · rw [processResponse_active cfgCancel413 stW 0 (by decide) rfl]
    decide

/-- Witness for the amended C4 theorem at concrete inputs: a 413 error
compacts and retries at depth 1; a plain error performs no compaction. -/
theorem processResponse_error_handling_witness :
    (processResponse cfg413 stW 0 =
      processResponse cfg413
        (summarizeStep cfg413 (pushDisplay
          { ensureFitsStep cfg413 stW with calls := (ensureFitsStep cfg413 stW).calls + 1 }
          (sysMsg "Hit token limit, auto-compacting...")))
        1) ∧
    (processResponse cfgBoom stW 0).compactions = (ensureFitsStep cfgBoom stW).compactions :=
  ⟨((processResponse_error_handling cfg413 stW 0 "413 Request too large"
      (by decide) rfl rfl (by decide)).1 (by decide)).1,
    ((processResponse_error_handling cfgBoom stW 0 "boom"
      (by decide) rfl rfl (by decide)).2 (by decide)).2⟩

end CloudeCode
